import Mathlib

/-!
# PET Saúde backend (`backend/server.js`)

A shallow embedding of the Express handlers of `server.js` and of the router
that dispatches to them.  The handlers are translated statement by statement;
the MySQL table they talk to and the `mysql2` pool are an explicit model of the
environment (a list of rows with the column constraints of `createTableQuery`,
and a counter of the connections that are out of the pool).  What the source
does not fix is a parameter: the collation of the text columns (the table is
created without `COLLATE`) and the offset of the server clock from UTC.
-/

namespace PetSaude

/-! ## JavaScript values and errors -/

/-- A JavaScript value as it reaches a handler: a field that is absent from
`req.body` destructures to `undefined`, JSON `null` is `null`, every other
scalar is carried by its string form. -/
inductive JsVal where
  | undefined
  | null
  | str (s : String)
deriving DecidableEq, Repr

/-- Template-literal conversion of a value, as in the search pattern. -/
def JsVal.toText : JsVal → String
  | .undefined => "undefined"
  | .null => "null"
  | .str s => s

/-- The kinds of error a handler can catch. -/
inductive ErrKind where
  | typeError
  | connection
  | noSuchTable
  | badNull
  | badValue
  | dupEntry
  | wrongArguments
deriving DecidableEq, Repr

/-- A thrown JavaScript error; handlers only read `message`. -/
structure JsError where
  kind : ErrKind
  message : String
deriving DecidableEq, Repr

/-! ## The `cadastro` table -/

/-- A calendar date, the value of a `DATE` column.  The driver hands it to
the handler as a JavaScript `Date` set to the local midnight of that day
(`dbConfig` has no `dateStrings`). -/
structure SqlDate where
  year : Nat
  month : Nat
  day : Nat
deriving DecidableEq, Repr

/-- One row of the table `cadastro` created by `createTableQuery`, as the
store keeps it and as the driver returns it. -/
structure Cadastro where
  cpf : String
  nome_completo : String
  data_nascimento : SqlDate
  sexo : String
  telefone : String
  quarto_leito : String
  queixa_principal : String
  observacoes : Option String
  created_at : Nat
  updated_at : Nat
deriving DecidableEq, Repr

/-- The connection pool created by `mysql.createPool(dbConfig)`: `held` counts
the connections handed out by `getConnection` and not yet given back by
`release`. -/
structure Pool where
  held : Nat
deriving DecidableEq, Repr

/-- The state shared by all requests: the pool, the table (`none` until
`createTableQuery` has run), the store clock behind `CURRENT_TIMESTAMP`, and
the collation of the text columns, taken as the weight it gives each
character (characters of equal weight compare equal, and texts are ordered by
their weights). -/
structure World where
  pool : Pool
  table : Option (List Cadastro)
  now : Nat
  collation : Char → Nat

/-- What the environment does during one request: `acquire = some e` makes
`pool.getConnection()` reject with `e`, `exec = some e` makes
`connection.execute` reject with `e` before the statement touches the table,
`elapsed` is the time that passes before the statement runs, `serverClock`
is what `new Date()` reads, and `utcOffset d` is the number of minutes by
which the time zone of the server puts the midnight of day `d` ahead of
UTC. -/
structure Env where
  acquire : Option JsError
  exec : Option JsError
  elapsed : Nat
  serverClock : Nat
  utcOffset : SqlDate → Int

/-! ## Column types of `createTableQuery` -/

/-- Value of a decimal digit, `none` for any other character. -/
def digitValue (c : Char) : Option Nat :=
  if c.isDigit then some (c.toNat - 48) else none

/-- Decimal value of a run of digits, `none` when a character is not a digit. -/
def digitsValue (cs : List Char) : Option Nat :=
  cs.foldl (fun acc c =>
    match acc, digitValue c with
    | some a, some d => some (10 * a + d)
    | _, _ => none) (some 0)

/-- Gregorian leap years. -/
def isLeapYear (y : Nat) : Bool :=
  (y % 4 == 0 && y % 100 != 0) || y % 400 == 0

/-- Days of month `m` in year `y`; `0` when `m` is not a month. -/
def daysInMonth (y m : Nat) : Nat :=
  if m == 2 then (if isLeapYear y then 29 else 28)
  else if m == 4 || m == 6 || m == 9 || m == 11 then 30
  else if 1 ≤ m && m ≤ 12 then 31
  else 0

/-- The date a `DATE` literal in canonical form `YYYY-MM-DD` names, inside
the supported range; `none` for any other text. -/
def parseDate (s : String) : Option SqlDate :=
  match s.data with
  | [y1, y2, y3, y4, d1, m1, m2, d2, a1, a2] =>
    if d1 == '-' && d2 == '-' then
      match digitsValue [y1, y2, y3, y4], digitsValue [m1, m2], digitsValue [a1, a2] with
      | some y, some m, some d =>
        if 1000 ≤ y && 1 ≤ d && d ≤ daysInMonth y m then some ⟨y, m, d⟩ else none
      | _, _, _ => none
    else none
  | _ => none

/-- Whether a text is a canonical `DATE` literal. -/
def isDate (s : String) : Bool := (parseDate s).isSome

/-- A `VARCHAR(n)` column holds at most `n` characters (strict SQL mode). -/
def varcharOk (n : Nat) (s : String) : Bool := s.length ≤ n

/-- A `TEXT` column holds at most 65535 bytes. -/
def textOk (s : String) : Bool := s.utf8ByteSize ≤ 65535

/-- The column `sexo ENUM(M, F)` holds one of its two members. -/
def sexoOk (s : String) : Bool := s == "M" || s == "F"

/-! ## The store: statements of `server.js` run against the table -/

/-- A bound SQL parameter: `none` is SQL `NULL`. -/
abbrev SqlVal := Option String

/-- The eight SQL statements of `server.js`, named after the constants that
hold them (`selectQuery` occurs twice: for the list and for the lookup). -/
inductive Stmt where
  | createTableQuery
  | insertQuery
  | selectAllQuery
  | selectByCpfQuery
  | updateQuery
  | deleteQuery
  | countQuery
  | searchQuery
deriving DecidableEq, Repr

/-- First component of what `connection.execute` resolves to: the rows of a
`SELECT`, the single row of `COUNT(*) as total`, or the header of a write. -/
inductive ExecResult where
  | rows (rs : List Cadastro)
  | total (n : Nat)
  | header
deriving DecidableEq, Repr

/-- A `NOT NULL` column receiving `v`: the stored string, or the error. -/
def requiredColumn (name : String) (ok : String → Bool) (v : SqlVal) : Except JsError String :=
  match v with
  | none => .error ⟨.badNull, "Column " ++ name ++ " cannot be null"⟩
  | some s =>
    if ok s then .ok s
    else .error ⟨.badValue, "Incorrect value for column " ++ name⟩

/-- The nullable column `observacoes TEXT`. -/
def optionalColumn (name : String) (ok : String → Bool) (v : SqlVal) : Except JsError (Option String) :=
  match v with
  | none => .ok none
  | some s =>
    if ok s then .ok (some s)
    else .error ⟨.badValue, "Incorrect value for column " ++ name⟩

/-- The column `data_nascimento DATE NOT NULL` receiving `v`: the date the
literal names, or the error. -/
def dateColumn (name : String) (v : SqlVal) : Except JsError SqlDate :=
  match v with
  | none => .error ⟨.badNull, "Column " ++ name ++ " cannot be null"⟩
  | some s =>
    match parseDate s with
    | some d => .ok d
    | none => .error ⟨.badValue, "Incorrect date value for column " ++ name⟩

/-- The values of the seven columns other than the key and the timestamps,
as a row holds them. -/
structure RowColumns where
  nome_completo : String
  data_nascimento : SqlDate
  sexo : String
  telefone : String
  quarto_leito : String
  queixa_principal : String
  observacoes : Option String
deriving DecidableEq, Repr

/-- The seven non-key columns checked against their types, in column order. -/
def checkColumns (nome dn sexo tel ql qp obs : SqlVal) : Except JsError RowColumns :=
  match requiredColumn "nome_completo" (varcharOk 255) nome with
  | .error e => .error e
  | .ok nome =>
  match dateColumn "data_nascimento" dn with
  | .error e => .error e
  | .ok dn =>
  match requiredColumn "sexo" sexoOk sexo with
  | .error e => .error e
  | .ok sexo =>
  match requiredColumn "telefone" (varcharOk 20) tel with
  | .error e => .error e
  | .ok tel =>
  match requiredColumn "quarto_leito" (varcharOk 50) ql with
  | .error e => .error e
  | .ok ql =>
  match requiredColumn "queixa_principal" textOk qp with
  | .error e => .error e
  | .ok qp =>
  match optionalColumn "observacoes" textOk obs with
  | .error e => .error e
  | .ok obs => .ok ⟨nome, dn, sexo, tel, ql, qp, obs⟩

/-- Pattern element of `LIKE`. -/
inductive LikeTok where
  | lit (c : Char)
  | one
  | many
deriving DecidableEq, Repr

/-- Reading of a `LIKE` pattern: `%` is any run of characters, `_` any single
character, and the backslash makes the character after it literal (a
backslash that ends the pattern stands for itself). -/
def likeTokens : List Char → List LikeTok
  | [] => []
  | c :: rest =>
    if c = Char.ofNat 92 then
      match rest with
      | [] => [.lit c]
      | d :: rest2 => .lit d :: likeTokens rest2
    else if c = '%' then .many :: likeTokens rest
    else if c = '_' then .one :: likeTokens rest
    else .lit c :: likeTokens rest

/-- Whether `k` accepts some suffix of the text. -/
def anySuffix (k : List Char → Bool) : List Char → Bool
  | [] => k []
  | c :: s => k (c :: s) || anySuffix k s

/-- Whether the whole text matches the pattern; a literal matches a
character of the same weight in the collation. -/
def likeMatch (weight : Char → Nat) : List LikeTok → List Char → Bool
  | [] => fun s => s.isEmpty
  | .lit c :: p => fun s =>
    match s with
    | [] => false
    | d :: s => weight c == weight d && likeMatch weight p s
  | .one :: p => fun s =>
    match s with
    | [] => false
    | _ :: s => likeMatch weight p s
  | .many :: p => anySuffix (likeMatch weight p)

/-- The predicate `text LIKE pattern` under a collation. -/
def sqlLike (weight : Char → Nat) (text pattern : String) : Bool :=
  likeMatch weight (likeTokens pattern.data) text.data

/-- Order of two texts given by the weights of their characters, the order
of `ORDER BY` on a text column. -/
def textLe : List Nat → List Nat → Bool
  | [], _ => true
  | _ :: _, [] => false
  | a :: as, b :: bs =>
    if a < b then true
    else if b < a then false
    else textLe as bs

/-- The relation of `ORDER BY nome_completo ASC` under a collation. -/
def NomeAsc (weight : Char → Nat) (a b : Cadastro) : Prop :=
  textLe (a.nome_completo.data.map weight) (b.nome_completo.data.map weight) = true

instance (weight : Char → Nat) : DecidableRel (NomeAsc weight) := fun a b =>
  inferInstanceAs
    (Decidable (textLe (a.nome_completo.data.map weight) (b.nome_completo.data.map weight) = true))

/-- The relation of `ORDER BY created_at DESC`. -/
def CreatedDesc (a b : Cadastro) : Prop := b.created_at ≤ a.created_at

instance : DecidableRel CreatedDesc := fun a b =>
  inferInstanceAs (Decidable (b.created_at ≤ a.created_at))

/-- The row written by `updateQuery` over `r`: the seven columns are
overwritten, and `updated_at` moves to the current time when a column
changed (`ON UPDATE CURRENT_TIMESTAMP`). -/
def updatedRow (now : Nat) (c : RowColumns) (r : Cadastro) : Cadastro :=
  let r2 : Cadastro :=
    { r with
      nome_completo := c.nome_completo,
      data_nascimento := c.data_nascimento,
      sexo := c.sexo,
      telefone := c.telefone,
      quarto_leito := c.quarto_leito,
      queixa_principal := c.queixa_principal,
      observacoes := c.observacoes }
  if r2 = r then r else { r2 with updated_at := now }

/-- One statement against an existing table at time `now`, with its
parameters bound by position to the `?` of the statement text.  The key is
compared exactly, as every collation compares the digits and punctuation of
a cpf; the name is compared and ordered by the collation `weight`. -/
def runStatement (weight : Char → Nat) (now : Nat) (t : List Cadastro) :
    Stmt → List SqlVal → Except JsError (ExecResult × List Cadastro)
  | .createTableQuery, [] => .ok (.header, t)
  | .insertQuery, [cpf, nome, dn, sexo, tel, ql, qp, obs] =>
    match requiredColumn "cpf" (varcharOk 14) cpf with
    | .error e => .error e
    | .ok cpf =>
    match checkColumns nome dn sexo tel ql qp obs with
    | .error e => .error e
    | .ok c =>
      if t.any (fun r => r.cpf == cpf) then
        .error ⟨.dupEntry, "Duplicate entry " ++ cpf ++ " for key cadastro.PRIMARY"⟩
      else
        .ok (.header, t ++ [⟨cpf, c.nome_completo, c.data_nascimento, c.sexo, c.telefone,
          c.quarto_leito, c.queixa_principal, c.observacoes, now, now⟩])
  | .selectAllQuery, [] => .ok (.rows (t.insertionSort CreatedDesc), t)
  | .selectByCpfQuery, [cpf] =>
    match cpf with
    | none => .ok (.rows [], t)
    | some cpf => .ok (.rows (t.filter (fun r => r.cpf == cpf)), t)
  | .updateQuery, [nome, dn, sexo, tel, ql, qp, obs, cpf] =>
    match cpf with
    | none => .ok (.header, t)
    | some cpf =>
      if t.any (fun r => r.cpf == cpf) then
        match checkColumns nome dn sexo tel ql qp obs with
        | .error e => .error e
        | .ok c => .ok (.header, t.map (fun r => if r.cpf == cpf then updatedRow now c r else r))
      else .ok (.header, t)
  | .deleteQuery, [cpf] =>
    match cpf with
    | none => .ok (.header, t)
    | some cpf => .ok (.header, t.filter (fun r => r.cpf != cpf))
  | .countQuery, [] => .ok (.total t.length, t)
  | .searchQuery, [pattern] =>
    match pattern with
    | none => .ok (.rows [], t)
    | some pattern =>
      .ok (.rows ((t.filter (fun r => sqlLike weight r.nome_completo pattern)).insertionSort
        (NomeAsc weight)), t)
  | _, _ => .error ⟨.wrongArguments, "Incorrect arguments to mysqld_stmt_execute"⟩

/-- Parameters as `mysql2` sends them: `undefined` is refused, `null` is SQL
`NULL`. -/
def bindParams : List JsVal → Except JsError (List SqlVal)
  | [] => .ok []
  | .undefined :: _ =>
    .error ⟨.typeError, "Bind parameters must not contain undefined. To pass SQL NULL specify JS null"⟩
  | .null :: ps =>
    match bindParams ps with
    | .error e => .error e
    | .ok vs => .ok (none :: vs)
  | .str s :: ps =>
    match bindParams ps with
    | .error e => .error e
    | .ok vs => .ok (some s :: vs)

/-- Model of `connection.execute(stmt, params)`: the driver binds the
parameters, the environment may fail the call, the clock advances, and the
statement runs as a whole or not at all.  Only `createTableQuery` can run
without the table.  A row of the result carries the `DATE` column as the date
it holds, which stands for the `Date` object the driver builds from it; its
JSON form is given by `isoDate`. -/
def execute (env : Env) (stmt : Stmt) (params : List JsVal) (w : World) :
    Except JsError (ExecResult × World) :=
  match bindParams params with
  | .error e => .error e
  | .ok vs =>
  match env.exec with
  | some e => .error e
  | none =>
    match w.table, stmt with
    | none, .createTableQuery =>
      match vs with
      | [] => .ok (.header, { w with table := some [], now := w.now + env.elapsed })
      | _ => .error ⟨.wrongArguments, "Incorrect arguments to mysqld_stmt_execute"⟩
    | none, _ => .error ⟨.noSuchTable, "Table pet_tec.cadastro does not exist"⟩
    | some t, stmt =>
      match runStatement w.collation (w.now + env.elapsed) t stmt vs with
      | .error e => .error e
      | .ok (r, t2) => .ok (r, { w with table := some t2, now := w.now + env.elapsed })

/-! ## Requests and responses -/

/-- The `data` of an envelope: one row (`rows[0]`) or the array of rows, as
the objects the driver returned; `Cadastro.toJson` is the JSON of a row. -/
inductive Payload where
  | record (r : Cadastro)
  | records (rs : List Cadastro)
deriving DecidableEq, Repr

/-- The JSON object the handlers send; a key that is not written is `none`. -/
structure Envelope where
  success : Bool
  data : Option Payload
  message : Option String
  error : Option String
  total : Option Nat
deriving DecidableEq, Repr

/-- Body of a response: the envelope, or the object of the probe route. -/
inductive Body where
  | envelope (e : Envelope)
  | info (message status : String) (timestamp : Nat)
deriving DecidableEq, Repr

/-- What `res.status(..).json(..)` sends (`res.json` alone is status 200). -/
structure Response where
  status : Nat
  body : Body
deriving DecidableEq, Repr

/-- The fields a handler destructures from `req.body`. -/
structure ReqBody where
  cpf : JsVal
  nomeCompleto : JsVal
  dataNascimento : JsVal
  sexo : JsVal
  telefone : JsVal
  quartoLeito : JsVal
  queixaPrincipal : JsVal
  observacoes : JsVal
deriving DecidableEq, Repr

/-- The object `req.params`: a name the route does not bind is `undefined`. -/
structure Params where
  cpf : JsVal
  nome : JsVal
deriving DecidableEq, Repr

/-- What a handler reads of the request; `body = none` is a request whose
`req.body` is `undefined`. -/
structure Req where
  params : Params
  body : Option ReqBody
deriving DecidableEq, Repr

/-- State of one handler run: the shared world and the responses sent. -/
structure HandlerState where
  world : World
  sent : List Response

/-- How the `try` block ends: it runs to its end, or a statement throws. -/
inductive Completion where
  | normal (s : HandlerState)
  | thrown (e : JsError) (s : HandlerState)

/-- What a handler leaves behind: the responses sent, the world, and the
error that left the handler uncaught, if any. -/
structure Outcome where
  sent : List Response
  world : World
  escaped : Option JsError

/-- Model of `await pool.getConnection()`. -/
def getConnection (env : Env) (s : HandlerState) : Except JsError HandlerState :=
  match env.acquire with
  | some e => .error e
  | none => .ok { s with world := { s.world with pool := ⟨s.world.pool.held + 1⟩ } }

/-- Model of `connection.release()`. -/
def release (s : HandlerState) : HandlerState :=
  { s with world := { s.world with pool := ⟨s.world.pool.held - 1⟩ } }

/-- Model of `await connection.execute(stmt, params)` in a handler. -/
def connectionExecute (env : Env) (stmt : Stmt) (params : List JsVal) (s : HandlerState) :
    Except JsError (ExecResult × HandlerState) :=
  match execute env stmt params s.world with
  | .error e => .error e
  | .ok (r, w) => .ok (r, { s with world := w })

/-- The error of writing a response after one was sent. -/
def headersSent : JsError :=
  ⟨.typeError, "Cannot set headers after they are sent to the client"⟩

/-- Model of `res.status(status).json(body)`: it sends the response, and
throws when a response was already sent. -/
def resJson (status : Nat) (body : Body) (s : HandlerState) : Completion :=
  match s.sent with
  | [] => .normal { s with sent := [⟨status, body⟩] }
  | _ :: _ => .thrown headersSent s

/-- The envelope `{ success: true, message }`. -/
def successMessage (m : String) : Body :=
  .envelope ⟨true, none, some m, none, none⟩

/-- The envelope `{ success: true, data }`. -/
def successData (d : Payload) : Body :=
  .envelope ⟨true, some d, none, none, none⟩

/-- The envelope `{ success: false, error: error.message }` of every `catch`. -/
def failureError (e : JsError) : Body :=
  .envelope ⟨false, none, none, some e.message, none⟩

/-- The `try { .. } catch (error) { res.status(500).json(..) }` that wraps
every handler body; an error thrown inside the `catch` block leaves the
handler. -/
def tryCatch (body : HandlerState → Completion) (w : World) : Outcome :=
  match body ⟨w, []⟩ with
  | .normal s => ⟨s.sent, s.world, none⟩
  | .thrown e s =>
    match resJson 500 (failureError e) s with
    | .normal s2 => ⟨s2.sent, s2.world, none⟩
    | .thrown e2 s2 => ⟨s2.sent, s2.world, some e2⟩

/-- The error of destructuring `req.body` when it is `undefined`. -/
def destructureError : JsError :=
  ⟨.typeError, "Cannot destructure property of req.body as it is undefined."⟩

/-- The rows of a result (`[rows]`), empty for a result that has none. -/
def ExecResult.asRows : ExecResult → List Cadastro
  | .rows rs => rs
  | _ => []

/-! ## The handlers of `server.js`, in source order -/

/-- Try block of `app.get('/')`. -/
def rootBody (env : Env) (_req : Req) (s : HandlerState) : Completion :=
  resJson 200 (.info "API PET Saúde funcionando!" "online" env.serverClock) s

/-- Try block of `app.post('/api/create-table')`. -/
def createTableBody (env : Env) (_req : Req) (s : HandlerState) : Completion :=
  match getConnection env s with
  | .error e => .thrown e s
  | .ok s =>
  match connectionExecute env .createTableQuery [] s with
  | .error e => .thrown e s
  | .ok (_, s) =>
  let s := release s
  resJson 200 (successMessage "Tabela criada com sucesso!") s

/-- Try block of `app.post('/api/cadastros')`. -/
def createBody (env : Env) (req : Req) (s : HandlerState) : Completion :=
  match req.body with
  | none => .thrown destructureError s
  | some b =>
  match getConnection env s with
  | .error e => .thrown e s
  | .ok s =>
  match connectionExecute env .insertQuery
      [b.cpf, b.nomeCompleto, b.dataNascimento, b.sexo, b.telefone, b.quartoLeito,
        b.queixaPrincipal, b.observacoes] s with
  | .error e => .thrown e s
  | .ok (_, s) =>
  let s := release s
  resJson 200 (successMessage "Paciente cadastrado com sucesso!") s

/-- Try block of `app.get('/api/cadastros')`. -/
def listBody (env : Env) (_req : Req) (s : HandlerState) : Completion :=
  match getConnection env s with
  | .error e => .thrown e s
  | .ok s =>
  match connectionExecute env .selectAllQuery [] s with
  | .error e => .thrown e s
  | .ok (rows, s) =>
  let s := release s
  resJson 200 (successData (.records rows.asRows)) s

/-- Try block of `app.get('/api/cadastros/:cpf')`. -/
def getBody (env : Env) (req : Req) (s : HandlerState) : Completion :=
  let cpf := req.params.cpf
  match getConnection env s with
  | .error e => .thrown e s
  | .ok s =>
  match connectionExecute env .selectByCpfQuery [cpf] s with
  | .error e => .thrown e s
  | .ok (rows, s) =>
  let s := release s
  match rows.asRows with
  | r :: _ => resJson 200 (successData (.record r)) s
  | [] => resJson 404 (.envelope ⟨false, none, some "Paciente não encontrado", none, none⟩) s

/-- Try block of `app.put('/api/cadastros/:cpf')`. -/
def updateBody (env : Env) (req : Req) (s : HandlerState) : Completion :=
  let cpf := req.params.cpf
  match req.body with
  | none => .thrown destructureError s
  | some b =>
  match getConnection env s with
  | .error e => .thrown e s
  | .ok s =>
  match connectionExecute env .updateQuery
      [b.nomeCompleto, b.dataNascimento, b.sexo, b.telefone, b.quartoLeito,
        b.queixaPrincipal, b.observacoes, cpf] s with
  | .error e => .thrown e s
  | .ok (_, s) =>
  let s := release s
  resJson 200 (successMessage "Paciente atualizado com sucesso!") s

/-- Try block of `app.delete('/api/cadastros/:cpf')`. -/
def deleteBody (env : Env) (req : Req) (s : HandlerState) : Completion :=
  let cpf := req.params.cpf
  match getConnection env s with
  | .error e => .thrown e s
  | .ok s =>
  match connectionExecute env .deleteQuery [cpf] s with
  | .error e => .thrown e s
  | .ok (_, s) =>
  let s := release s
  resJson 200 (successMessage "Paciente deletado com sucesso!") s

/-- Try block of `app.get('/api/cadastros/count')`; `rows[0].total` throws when
the result has no such row. -/
def countBody (env : Env) (_req : Req) (s : HandlerState) : Completion :=
  match getConnection env s with
  | .error e => .thrown e s
  | .ok s =>
  match connectionExecute env .countQuery [] s with
  | .error e => .thrown e s
  | .ok (rows, s) =>
  let s := release s
  match rows with
  | .total n => resJson 200 (.envelope ⟨true, none, none, none, some n⟩) s
  | _ => .thrown ⟨.typeError, "Cannot read properties of undefined (reading total)"⟩ s

/-- Try block of `app.get('/api/cadastros/search/:nome')`. -/
def searchBody (env : Env) (req : Req) (s : HandlerState) : Completion :=
  let nome := req.params.nome
  match getConnection env s with
  | .error e => .thrown e s
  | .ok s =>
  match connectionExecute env .searchQuery [.str ("%" ++ nome.toText ++ "%")] s with
  | .error e => .thrown e s
  | .ok (rows, s) =>
  let s := release s
  resJson 200 (successData (.records rows.asRows)) s

/-- The handlers of `server.js`. -/
inductive Handler where
  | root
  | createTable
  | create
  | list
  | get
  | update
  | delete
  | count
  | search
deriving DecidableEq, Repr

/-- The `try` block of each handler. -/
def Handler.body : Handler → Env → Req → HandlerState → Completion
  | .root => rootBody
  | .createTable => createTableBody
  | .create => createBody
  | .list => listBody
  | .get => getBody
  | .update => updateBody
  | .delete => deleteBody
  | .count => countBody
  | .search => searchBody

/-- One run of a handler: its `try` block under its `catch`. -/
def Handler.run (h : Handler) (env : Env) (req : Req) (w : World) : Outcome :=
  tryCatch (h.body env req) w

/-! ## The router -/

/-- HTTP methods registered in `server.js`. -/
inductive Method where
  | GET
  | POST
  | PUT
  | DELETE
deriving DecidableEq, Repr

/-- A segment of a route path: a literal or a named parameter (`:cpf`). -/
inductive Seg where
  | lit (s : String)
  | param (name : String)
deriving DecidableEq, Repr

/-- A request as the router sees it: method, path split at `/` into its
decoded segments, and the parsed body. -/
structure HttpRequest where
  method : Method
  path : List String
  body : Option ReqBody
deriving DecidableEq, Repr

/-- Binding of a parameter name in `req.params`. -/
def Params.bind (ps : Params) (name value : String) : Params :=
  if name = "cpf" then { ps with cpf := .str value }
  else if name = "nome" then { ps with nome := .str value }
  else ps

/-- Match of a path against a route path: literal segments are equal, a
parameter takes one non-empty segment, and the lengths agree. -/
def matchPath : List Seg → List String → Params → Option Params
  | [], [], ps => some ps
  | .lit l :: segs, x :: xs, ps => if l = x then matchPath segs xs ps else none
  | .param n :: segs, x :: xs, ps => if x = "" then none else matchPath segs xs (ps.bind n x)
  | _, _, _ => none

/-- The routing table, in the order of the `app.get/post/put/delete` calls. -/
def routes : List (Method × List Seg × Handler) :=
  [ (.GET, [], .root),
    (.POST, [.lit "api", .lit "create-table"], .createTable),
    (.POST, [.lit "api", .lit "cadastros"], .create),
    (.GET, [.lit "api", .lit "cadastros"], .list),
    (.GET, [.lit "api", .lit "cadastros", .param "cpf"], .get),
    (.PUT, [.lit "api", .lit "cadastros", .param "cpf"], .update),
    (.DELETE, [.lit "api", .lit "cadastros", .param "cpf"], .delete),
    (.GET, [.lit "api", .lit "cadastros", .lit "count"], .count),
    (.GET, [.lit "api", .lit "cadastros", .lit "search", .param "nome"], .search) ]

/-- First route, in registration order, whose method and path match. -/
def findRoute : List (Method × List Seg × Handler) → HttpRequest → Option (Handler × Params)
  | [], _ => none
  | (m, pat, h) :: rest, r =>
    if m = r.method then
      match matchPath pat r.path ⟨.undefined, .undefined⟩ with
      | some ps => some (h, ps)
      | none => findRoute rest r
    else findRoute rest r

/-- Dispatch of a request: the first matching handler runs, and since no
handler calls `next`, no later route is tried; `none` when no route matches. -/
def dispatch (env : Env) (r : HttpRequest) (w : World) : Option Outcome :=
  match findRoute routes r with
  | some (h, ps) => some (h.run env ⟨ps, r.body⟩ w)
  | none => none

/-! ## Vocabulary of the statements -/

/-- The statement and the parameters a handler passes to
`connection.execute`; `none` for the probe route, and for a handler that
reads `req.body` when the request has none. -/
def Handler.statement : Handler → Req → Option (Stmt × List JsVal)
  | .root, _ => none
  | .createTable, _ => some (.createTableQuery, [])
  | .create, req =>
    req.body.map fun b =>
      (.insertQuery, [b.cpf, b.nomeCompleto, b.dataNascimento, b.sexo, b.telefone,
        b.quartoLeito, b.queixaPrincipal, b.observacoes])
  | .list, _ => some (.selectAllQuery, [])
  | .get, req => some (.selectByCpfQuery, [req.params.cpf])
  | .update, req =>
    req.body.map fun b =>
      (.updateQuery, [b.nomeCompleto, b.dataNascimento, b.sexo, b.telefone,
        b.quartoLeito, b.queixaPrincipal, b.observacoes, req.params.cpf])
  | .delete, req => some (.deleteQuery, [req.params.cpf])
  | .count, _ => some (.countQuery, [])
  | .search, req => some (.searchQuery, [.str ("%" ++ req.params.nome.toText ++ "%")])

/-- The world once a connection has been taken from the pool. -/
def World.acquired (w : World) : World :=
  { w with pool := ⟨w.pool.held + 1⟩ }

/-- The envelope `{ success: false, message: .. }` of a lookup that misses. -/
def notFound : Response :=
  ⟨404, .envelope ⟨false, none, some "Paciente não encontrado", none, none⟩⟩

/-- The seven fields of a record other than the key, as a client posts
them: each is a text, and the notes may be absent. -/
structure Columns where
  nome_completo : String
  data_nascimento : String
  sexo : String
  telefone : String
  quarto_leito : String
  queixa_principal : String
  observacoes : Option String
deriving DecidableEq, Repr

/-- Whether the columns pass the types of `createTableQuery`. -/
def Columns.valid (c : Columns) : Bool :=
  varcharOk 255 c.nome_completo && isDate c.data_nascimento && sexoOk c.sexo &&
    varcharOk 20 c.telefone && varcharOk 50 c.quarto_leito && textOk c.queixa_principal &&
    (match c.observacoes with
     | none => true
     | some s => textOk s)

/-- JSON form of an optional text: `null` when absent. -/
def jsOfOption : Option String → JsVal
  | none => .null
  | some s => .str s

/-- The request body that carries the key `cpf` and the columns `c`. -/
def bodyOf (cpf : JsVal) (c : Columns) : ReqBody :=
  ⟨cpf, .str c.nome_completo, .str c.data_nascimento, .str c.sexo, .str c.telefone,
    .str c.quarto_leito, .str c.queixa_principal, jsOfOption c.observacoes⟩

/-- An environment in which neither the pool nor the store fails. -/
def Env.healthy (env : Env) : Prop := env.acquire = none ∧ env.exec = none

instance (env : Env) : Decidable env.healthy :=
  inferInstanceAs (Decidable (env.acquire = none ∧ env.exec = none))

/-- The reply of the lookup handler to the rows its statement selects. -/
def lookupReply : List Cadastro → Response
  | r :: _ => ⟨200, successData (.record r)⟩
  | [] => notFound

/-- The values a row holds for posted columns whose date literal names `d`. -/
def Columns.toRow (c : Columns) (d : SqlDate) : RowColumns :=
  ⟨c.nome_completo, d, c.sexo, c.telefone, c.quarto_leito, c.queixa_principal, c.observacoes⟩

/-- The row an insert of key `cpf` and columns `c` writes at time `now`. -/
def insertedRow (now : Nat) (cpf : String) (c : RowColumns) : Cadastro :=
  ⟨cpf, c.nome_completo, c.data_nascimento, c.sexo, c.telefone, c.quarto_leito,
    c.queixa_principal, c.observacoes, now, now⟩

/-- The error of an insert whose key is taken. -/
def dupEntry (cpf : String) : JsError :=
  ⟨.dupEntry, "Duplicate entry " ++ cpf ++ " for key cadastro.PRIMARY"⟩

/-- The SQL value `mysql2` sends for a defined parameter. -/
def JsVal.toSql : JsVal → SqlVal
  | .str s => some s
  | _ => none

/-- The seven fields of a body that the update binds. -/
def ReqBody.mutableFields (b : ReqBody) : List JsVal :=
  [b.nomeCompleto, b.dataNascimento, b.sexo, b.telefone, b.quartoLeito, b.queixaPrincipal,
    b.observacoes]

/-- The predicate `cpf <> key` on rows. -/
def otherKey (cpf : String) (r : Cadastro) : Bool := r.cpf != cpf

/-- The predicate `cpf = key` on rows. -/
def hasKey (cpf : String) (r : Cadastro) : Bool := r.cpf == cpf

/-- The invariant of a table at time `now`: keys are distinct and no
timestamp is ahead of the clock or out of order. -/
def TableOk (now : Nat) (t : List Cadastro) : Prop :=
  (t.map (fun r => r.cpf)).Nodup ∧ ∀ r ∈ t, r.created_at ≤ r.updated_at ∧ r.updated_at ≤ now

/-- The invariant of the world: its table, when there is one, is in order
at the time of the store clock. -/
def World.wellFormed (w : World) : Prop :=
  ∀ t, w.table = some t → TableOk w.now t

/-! ## The JSON a client receives -/

/-- The decimal digit of the units of `n`. -/
def digitChar (n : Nat) : Char := Char.ofNat (48 + n % 10)

/-- Two decimal digits. -/
def pad2 (n : Nat) : String := String.mk [digitChar (n / 10), digitChar n]

/-- The year of an ISO timestamp: four digits, or a sign and six digits
past the year 9999. -/
def isoYear (y : Nat) : String :=
  if y ≤ 9999 then
    String.mk [digitChar (y / 1000), digitChar (y / 100), digitChar (y / 10), digitChar y]
  else
    String.mk ['+', digitChar (y / 100000), digitChar (y / 10000), digitChar (y / 1000),
      digitChar (y / 100), digitChar (y / 10), digitChar y]

/-- Days from the first of March of the year 0 to the date. -/
def dayNumber (d : SqlDate) : Nat :=
  let y := if d.month ≤ 2 then d.year - 1 else d.year
  let mp := (d.month + 9) % 12
  let doy := (153 * mp + 2) / 5 + d.day - 1
  let yoe := y % 400
  (y / 400) * 146097 + (yoe * 365 + yoe / 4 - yoe / 100 + doy)

/-- The date that lies `z` days after the first of March of the year 0. -/
def dateOfDayNumber (z : Nat) : SqlDate :=
  let doe := z % 146097
  let yoe := (doe - doe / 1460 + doe / 36524 - doe / 146096) / 365
  let doy := doe - (365 * yoe + yoe / 4 - yoe / 100)
  let mp := (5 * doy + 2) / 153
  let m := if mp < 10 then mp + 3 else mp - 9
  let y := yoe + (z / 146097) * 400
  ⟨if m ≤ 2 then y + 1 else y, m, doy - (153 * mp + 2) / 5 + 1⟩

/-- What `res.json` writes for a `DATE` value: the driver built a `Date` at
the local midnight of the day, and `JSON.stringify` prints it with
`toISOString`, that is in UTC; `offset` is the number of minutes local time
is ahead of UTC. -/
def isoDate (offset : Int) (d : SqlDate) : String :=
  let n := (((dayNumber d * 1440 : Nat) : Int) - offset).toNat
  let day := dateOfDayNumber (n / 1440)
  isoYear day.year ++ "-" ++ pad2 day.month ++ "-" ++ pad2 day.day ++ "T"
    ++ pad2 (n % 1440 / 60) ++ ":" ++ pad2 (n % 1440 % 60) ++ ":00.000Z"

/-- A record as the client reads it in the JSON of a response.  The two
timestamps are kept as instants; their text is not modelled. -/
structure JsonRecord where
  cpf : String
  nome_completo : String
  data_nascimento : String
  sexo : String
  telefone : String
  quarto_leito : String
  queixa_principal : String
  observacoes : Option String
  created_at : Nat
  updated_at : Nat
deriving DecidableEq, Repr

/-- What `res.json` writes for a row of a result. -/
def Cadastro.toJson (env : Env) (r : Cadastro) : JsonRecord :=
  ⟨r.cpf, r.nome_completo, isoDate (env.utcOffset r.data_nascimento) r.data_nascimento,
    r.sexo, r.telefone, r.quarto_leito, r.queixa_principal, r.observacoes, r.created_at,
    r.updated_at⟩

/-! ## Specification of the pattern match and of the order -/

/-- Specification of `text LIKE pattern`, after the manual of the store:
`%` stands for any run of characters, `_` for exactly one character, a
backslash makes the character after it stand for itself (and stands for
itself at the end of the pattern), and every other character stands for the
characters of its weight in the collation. -/
inductive MatchesLike (weight : Char → Nat) : List Char → List Char → Prop where
  | empty : MatchesLike weight [] []
  | percent (u : List Char) {p t : List Char} :
      MatchesLike weight p t → MatchesLike weight ('%' :: p) (u ++ t)
  | underscore (x : Char) {p t : List Char} :
      MatchesLike weight p t → MatchesLike weight ('_' :: p) (x :: t)
  | escaped (d x : Char) {p t : List Char} :
      weight d = weight x → MatchesLike weight p t →
      MatchesLike weight (Char.ofNat 92 :: d :: p) (x :: t)
  | lastBackslash (x : Char) :
      weight (Char.ofNat 92) = weight x → MatchesLike weight [Char.ofNat 92] [x]
  | literal (c x : Char) {p t : List Char} :
      c ≠ '%' → c ≠ '_' → c ≠ Char.ofNat 92 → weight c = weight x →
      MatchesLike weight p t → MatchesLike weight (c :: p) (x :: t)

/-- Specification of the order of names: the weights of the two names are
equal, or the first comes before the second in the lexicographic order. -/
def NomeLe (weight : Char → Nat) (a b : Cadastro) : Prop :=
  a.nome_completo.data.map weight = b.nome_completo.data.map weight
    ∨ List.Lex (fun x y : Nat => x < y) (a.nome_completo.data.map weight)
        (b.nome_completo.data.map weight)

/-- Specification of containment under a collation: some run of consecutive
characters of the text has, character by character, the weights of `s`. -/
def ContainsUnder (weight : Char → Nat) (s text : List Char) : Prop :=
  ∃ u, u <:+: text ∧ u.map weight = s.map weight

/-! ## Sample data -/

/-- A case-insensitive collation: a capital letter of the basic alphabet
weighs as its small letter. -/
def foldCase (c : Char) : Nat :=
  if 65 ≤ c.toNat ∧ c.toNat ≤ 90 then c.toNat + 32 else c.toNat

/-- The record of the scenario of the specification. -/
def maria : Columns :=
  ⟨"Maria Silva", "1990-05-01", "F", "11999999999", "204A", "febre", none⟩

/-- The row of `maria` inserted at time 1. -/
def mariaRow : Cadastro :=
  ⟨"123.456.789-00", "Maria Silva", ⟨1990, 5, 1⟩, "F", "11999999999", "204A", "febre", none,
    1, 1⟩

/-- An environment without failures in which one time unit passes, on a
server whose clock is on UTC. -/
def calm : Env := ⟨none, none, 1, 0, fun _ => 0⟩

/-- A world with an empty table and every connection in the pool. -/
def emptyWorld : World := ⟨⟨0⟩, some [], 0, foldCase⟩

/-- A world whose table holds `mariaRow`. -/
def mariaWorld : World := ⟨⟨0⟩, some [mariaRow], 1, foldCase⟩

/-- The error of a store that refuses the connection. -/
def econnrefused : JsError := ⟨.connection, "connect ECONNREFUSED 127.0.0.1:3306"⟩

/-- An environment in which the pool cannot reach the store. -/
def unreachable : Env := ⟨some econnrefused, none, 0, 0, fun _ => 0⟩

/-- New values for the record of the scenario: another phone and room. -/
def mariaUpdate : Columns :=
  ⟨"Maria Silva", "1990-05-01", "F", "1133334444", "305B", "febre", none⟩

/-- The row of `maria` after `mariaUpdate` was written at time 2. -/
def mariaUpdatedRow : Cadastro :=
  ⟨"123.456.789-00", "Maria Silva", ⟨1990, 5, 1⟩, "F", "1133334444", "305B", "febre", none,
    1, 2⟩

/-! ## Shape of the handlers -/

/-- An execute that fails in a handler is a failed `execute` on its world. -/
theorem connectionExecute_error (env : Env) (stmt : Stmt) (ps : List JsVal) (s : HandlerState)
    (e : JsError) :
    connectionExecute env stmt ps s = .error e ↔ execute env stmt ps s.world = .error e := by
  unfold connectionExecute
  split <;> simp_all

/-- An execute that resolves in a handler replaces the world and sends
nothing. -/
theorem connectionExecute_ok (env : Env) (stmt : Stmt) (ps : List JsVal) (s s2 : HandlerState)
    (r : ExecResult) :
    connectionExecute env stmt ps s = .ok (r, s2)
      ↔ ∃ w2, execute env stmt ps s.world = .ok (r, w2) ∧ s2 = ⟨w2, s.sent⟩ := by
  unfold connectionExecute
  split
  · simp_all
  · next r2 w2 h => simp_all; aesop

/-- A response written when none was sent is sent. -/
theorem resJson_fresh (status : Nat) (body : Body) (w : World) :
    resJson status body ⟨w, []⟩ = .normal ⟨w, [⟨status, body⟩]⟩ := rfl

/-- The catch of a throw that happened before any response answers 500 with
the envelope of the error, and nothing leaves the handler. -/
theorem tryCatch_thrown (body : HandlerState → Completion) (w w2 : World) (e : JsError)
    (hb : body ⟨w, []⟩ = .thrown e ⟨w2, []⟩) :
    tryCatch body w = ⟨[⟨500, failureError e⟩], w2, none⟩ := by
  simp [tryCatch, hb, resJson]

/-- A try block that runs to its end leaves what it sent. -/
theorem tryCatch_normal (body : HandlerState → Completion) (w : World) (s : HandlerState)
    (hb : body ⟨w, []⟩ = .normal s) :
    tryCatch body w = ⟨s.sent, s.world, none⟩ := by
  simp [tryCatch, hb]

/-- Shape of every try block: nothing is sent before a throw, and a block
that runs to its end has sent one response, whose status is not 500. -/
theorem body_shape (h : Handler) (env : Env) (req : Req) (w : World) :
    (∃ e w2, h.body env req ⟨w, []⟩ = .thrown e ⟨w2, []⟩)
      ∨ (∃ resp w2, h.body env req ⟨w, []⟩ = .normal ⟨w2, [resp]⟩ ∧ resp.status ≠ 500) := by
  rcases req with ⟨ps, _ | b⟩ <;> cases h <;> cases ha : env.acquire <;>
    simp only [Handler.body, rootBody, createTableBody, createBody, listBody, getBody,
      updateBody, deleteBody, countBody, searchBody, getConnection, ha] <;>
    first
    | exact Or.inl ⟨_, _, rfl⟩
    | exact Or.inr ⟨_, _, rfl, by simp⟩
    | (split
       · exact Or.inl ⟨_, _, rfl⟩
       · next heq =>
         obtain ⟨w2, -, rfl⟩ := (connectionExecute_ok _ _ _ _ _ _).mp heq
         simp only [release]
         first
         | exact Or.inr ⟨_, _, rfl, by simp⟩
         | (split <;> first
             | exact Or.inl ⟨_, _, rfl⟩
             | exact Or.inr ⟨_, _, rfl, by simp⟩))

/-- A handler whose connection cannot be acquired throws that error with the
world untouched. -/
theorem body_of_acquire_error (h : Handler) (env : Env) (req : Req) (w : World)
    (stmt : Stmt) (ps : List JsVal) (e : JsError)
    (hs : h.statement req = some (stmt, ps)) (ha : env.acquire = some e) :
    h.body env req ⟨w, []⟩ = .thrown e ⟨w, []⟩ := by
  rcases req with ⟨prm, _ | b⟩ <;> cases h <;>
    simp_all [Handler.statement, Handler.body, createTableBody, createBody, listBody, getBody,
      updateBody, deleteBody, countBody, searchBody, getConnection]

/-- A handler whose statement fails throws that error while it still holds
the connection it acquired. -/
theorem body_of_execute_error (h : Handler) (env : Env) (req : Req) (w : World)
    (stmt : Stmt) (ps : List JsVal) (e : JsError)
    (hs : h.statement req = some (stmt, ps)) (ha : env.acquire = none)
    (hx : execute env stmt ps w.acquired = .error e) :
    h.body env req ⟨w, []⟩ = .thrown e ⟨w.acquired, []⟩ := by
  rcases req with ⟨prm, _ | b⟩ <;> cases h <;>
    simp_all [Handler.statement, Handler.body, createTableBody, createBody, listBody, getBody,
      updateBody, deleteBody, countBody, searchBody, getConnection, connectionExecute,
      World.acquired]

/-- A handler whose statement resolves gives its connection back: the pool
holds what it held before. -/
theorem body_of_execute_ok (h : Handler) (env : Env) (req : Req) (w w2 : World)
    (stmt : Stmt) (ps : List JsVal) (r : ExecResult)
    (hs : h.statement req = some (stmt, ps)) (ha : env.acquire = none)
    (hx : execute env stmt ps w.acquired = .ok (r, w2)) :
    (h.run env req w).world = { w2 with pool := ⟨w2.pool.held - 1⟩ } := by
  rcases req with ⟨prm, _ | b⟩ <;> cases h <;>
    simp_all [Handler.statement, Handler.body, Handler.run, tryCatch, createTableBody,
      createBody, listBody, getBody, updateBody, deleteBody, countBody, searchBody,
      getConnection, connectionExecute, World.acquired, release, resJson]
  · cases hr : r.asRows <;> simp [resJson]
  · cases r <;> simp [resJson]
  · cases hr : r.asRows <;> simp [resJson]
  · cases r <;> simp [resJson]

/-! ## Routing -/

/-- A `GET /api/cadastros/count` is taken by the route `/api/cadastros/:cpf`,
registered before the count route, with `cpf = "count"`. -/
theorem dispatch_count_path (env : Env) (w : World) (body : Option ReqBody) :
    dispatch env ⟨.GET, ["api", "cadastros", "count"], body⟩ w
      = some (Handler.get.run env ⟨⟨.str "count", .undefined⟩, body⟩ w) := by
  simp [dispatch, routes, findRoute, matchPath, Params.bind]

/-- C2 (fails on the code): on an empty table `GET /api/cadastros/count` is
answered by the lookup handler with 404, while the count handler, were it
reached, would answer 200 with total 0. -/
theorem count_route_shadowed :
    (dispatch calm ⟨.GET, ["api", "cadastros", "count"], none⟩ emptyWorld).map (·.sent)
        = some [notFound]
      ∧ (Handler.count.run calm ⟨⟨.undefined, .undefined⟩, none⟩ emptyWorld).sent
        = [⟨200, .envelope ⟨true, none, none, none, some 0⟩⟩] := by
  decide

/-- The count handler itself answers 200 with the number of rows whenever
the environment is healthy and the table exists. -/
theorem count_handler_total (env : Env) (req : Req) (w : World) (t : List Cadastro)
    (henv : env.healthy) (ht : w.table = some t) :
    (Handler.count.run env req w).sent
      = [⟨200, .envelope ⟨true, none, none, none, some t.length⟩⟩] := by
  obtain ⟨ha, he⟩ := henv
  simp [Handler.run, Handler.body, tryCatch, countBody, getConnection, connectionExecute,
    execute, bindParams, runStatement, release, resJson, ha, he, ht]

/-! ## Connections -/

/-- C1 (fails on the code): a create whose insert is refused (duplicate key)
answers 500 and leaves the connection it acquired out of the pool. -/
theorem create_duplicate_leaks_connection :
    mariaWorld.pool.held = 0
      ∧ (Handler.create.run calm ⟨⟨.undefined, .undefined⟩,
          some (bodyOf (.str "123.456.789-00") maria)⟩ mariaWorld).world.pool.held = 1
      ∧ ((Handler.create.run calm ⟨⟨.undefined, .undefined⟩,
          some (bodyOf (.str "123.456.789-00") maria)⟩ mariaWorld).sent.map (·.status)) = [500] := by
  decide

/-- A statement does not touch the pool. -/
theorem execute_pool (env : Env) (stmt : Stmt) (ps : List JsVal) (w w2 : World) (r : ExecResult)
    (hx : execute env stmt ps w = .ok (r, w2)) : w2.pool = w.pool := by
  unfold execute at hx
  split at hx
  · cases hx
  · split at hx
    · cases hx
    · split at hx
      · split at hx
        · cases hx; rfl
        · cases hx
      · cases hx
      · split at hx
        · cases hx
        · cases hx; rfl

/-- Every handler run whose statement fails after the connection was
acquired ends with one more connection out of the pool than it started with. -/
theorem failed_execute_keeps_connection (h : Handler) (env : Env) (req : Req) (w : World)
    (stmt : Stmt) (ps : List JsVal) (e : JsError)
    (hs : h.statement req = some (stmt, ps)) (ha : env.acquire = none)
    (hx : execute env stmt ps w.acquired = .error e) :
    (h.run env req w).world.pool.held = w.pool.held + 1 := by
  simp [Handler.run, tryCatch_thrown _ w w.acquired e
    (body_of_execute_error h env req w stmt ps e hs ha hx), World.acquired]

/-- Every handler run whose statement resolves ends with as many connections
out of the pool as it started with. -/
theorem resolved_execute_releases (h : Handler) (env : Env) (req : Req) (w w2 : World)
    (stmt : Stmt) (ps : List JsVal) (r : ExecResult)
    (hs : h.statement req = some (stmt, ps)) (ha : env.acquire = none)
    (hx : execute env stmt ps w.acquired = .ok (r, w2)) :
    (h.run env req w).world.pool.held = w.pool.held := by
  rw [body_of_execute_ok h env req w w2 stmt ps r hs ha hx]
  simp [execute_pool env stmt ps w.acquired w2 r hx, World.acquired]

/-! ## Errors -/

/-- C3: every handler run sends exactly one response and lets no error
escape; an error `e` raised by acquiring the connection or by executing the
statement (or by any other step of the try block) is answered with status 500
and the body `{ success: false, error: e.message }`, the message as it is;
and a response with status 500 is sent only when a step of the try block
threw. -/
theorem handler_failure_envelope (h : Handler) (env : Env) (req : Req) (w : World) :
    (h.run env req w).escaped = none
      ∧ (h.run env req w).sent.length = 1
      ∧ (∀ stmt ps e, h.statement req = some (stmt, ps) → env.acquire = some e →
          (h.run env req w).sent
            = [⟨500, .envelope ⟨false, none, none, some e.message, none⟩⟩])
      ∧ (∀ stmt ps e, h.statement req = some (stmt, ps) → env.acquire = none →
          execute env stmt ps w.acquired = .error e →
          (h.run env req w).sent
            = [⟨500, .envelope ⟨false, none, none, some e.message, none⟩⟩])
      ∧ (∀ e s, h.body env req ⟨w, []⟩ = .thrown e s →
          (h.run env req w).sent
            = [⟨500, .envelope ⟨false, none, none, some e.message, none⟩⟩])
      ∧ (∀ resp ∈ (h.run env req w).sent, resp.status = 500 →
          ∃ e s, h.body env req ⟨w, []⟩ = .thrown e s
            ∧ resp = ⟨500, .envelope ⟨false, none, none, some e.message, none⟩⟩) := by
  have key : ∀ e s, h.body env req ⟨w, []⟩ = .thrown e s →
      (h.run env req w).sent
        = [⟨500, .envelope ⟨false, none, none, some e.message, none⟩⟩] := by
    intro e s hb
    rcases body_shape h env req w with ⟨e2, w2, h2⟩ | ⟨resp, w2, h2, -⟩
    · have h3 := h2
      rw [hb] at h3
      cases h3
      simp [Handler.run, tryCatch_thrown _ w w2 e h2, failureError]
    · rw [h2] at hb
      cases hb
  refine ⟨?_, ?_, ?_, ?_, key, ?_⟩
  · rcases body_shape h env req w with ⟨e2, w2, h2⟩ | ⟨resp, w2, h2, -⟩
    · simp [Handler.run, tryCatch_thrown _ w w2 e2 h2]
    · simp [Handler.run, tryCatch_normal _ w _ h2]
  · rcases body_shape h env req w with ⟨e2, w2, h2⟩ | ⟨resp, w2, h2, -⟩
    · simp [Handler.run, tryCatch_thrown _ w w2 e2 h2]
    · simp [Handler.run, tryCatch_normal _ w _ h2]
  · intro stmt ps e hs ha
    exact key e _ (body_of_acquire_error h env req w stmt ps e hs ha)
  · intro stmt ps e hs ha hx
    exact key e _ (body_of_execute_error h env req w stmt ps e hs ha hx)
  · intro resp hmem hst
    rcases body_shape h env req w with ⟨e2, w2, h2⟩ | ⟨resp2, w2, h2, hne⟩
    · refine ⟨e2, _, h2, ?_⟩
      simpa [Handler.run, tryCatch_thrown _ w w2 e2 h2, failureError] using hmem
    · have : resp = resp2 := by simpa [Handler.run, tryCatch_normal _ w _ h2] using hmem
      subst this
      exact absurd hst hne

/-- Witness for C3: a create whose connection is refused. -/
theorem handler_failure_envelope_witness :
    (Handler.create.run unreachable
        ⟨⟨.undefined, .undefined⟩, some (bodyOf (.str "123.456.789-00") maria)⟩ emptyWorld).sent
      = [⟨500, .envelope ⟨false, none, none, some "connect ECONNREFUSED 127.0.0.1:3306",
          none⟩⟩] :=
  (handler_failure_envelope .create unreachable
    ⟨⟨.undefined, .undefined⟩, some (bodyOf (.str "123.456.789-00") maria)⟩ emptyWorld).2.2.1
    _ _ econnrefused rfl rfl

/-! ## Statements in a healthy environment -/

/-- The date literal of valid columns names a date. -/
theorem valid_date (c : Columns) (hv : c.valid = true) :
    ∃ d, parseDate c.data_nascimento = some d := by
  have h : isDate c.data_nascimento = true := by
    simp only [Columns.valid, Bool.and_eq_true] at hv
    exact hv.1.1.1.1.1.2
  exact Option.isSome_iff_exists.mp h

/-- Valid columns pass the column checks, and the row holds their texts and
the date their literal names. -/
theorem checkColumns_valid (c : Columns) (d : SqlDate) (hv : c.valid = true)
    (hd : parseDate c.data_nascimento = some d) :
    checkColumns (some c.nome_completo) (some c.data_nascimento) (some c.sexo)
      (some c.telefone) (some c.quarto_leito) (some c.queixa_principal) c.observacoes
      = .ok (c.toRow d) := by
  rcases c with ⟨a1, a2, a3, a4, a5, a6, _ | a7⟩ <;>
    simp_all [Columns.valid, checkColumns, requiredColumn, optionalColumn, dateColumn,
      Columns.toRow]

/-- The parameters of a body built from columns all bind. -/
theorem bindParams_columns (c : Columns) (rest : List JsVal) (vs : List SqlVal)
    (hr : bindParams rest = .ok vs) :
    bindParams (.str c.nome_completo :: .str c.data_nascimento :: .str c.sexo ::
        .str c.telefone :: .str c.quarto_leito :: .str c.queixa_principal ::
        jsOfOption c.observacoes :: rest)
      = .ok (some c.nome_completo :: some c.data_nascimento :: some c.sexo ::
        some c.telefone :: some c.quarto_leito :: some c.queixa_principal ::
        c.observacoes :: vs) := by
  rcases c with ⟨a1, a2, a3, a4, a5, a6, _ | a7⟩ <;> simp [bindParams, jsOfOption, hr]

/-- A statement on an existing table, once its parameters are bound and
the environment lets it run, is the statement of the store. -/
theorem execute_of_table (env : Env) (stmt : Stmt) (ps : List JsVal) (w : World)
    (t : List Cadastro) (vs : List SqlVal) (he : env.exec = none) (ht : w.table = some t)
    (hb : bindParams ps = .ok vs) :
    execute env stmt ps w
      = match runStatement w.collation (w.now + env.elapsed) t stmt vs with
        | .error e => .error e
        | .ok (r, t2) => .ok (r, { w with table := some t2, now := w.now + env.elapsed }) := by
  simp [execute, he, ht, hb]

/-- The lookup handler in a healthy environment: it answers from the rows
whose key is the path parameter and changes nothing but the clock. -/
theorem get_run (env : Env) (req : Req) (w : World) (t : List Cadastro) (cpf : String)
    (henv : env.healthy) (ht : w.table = some t) (hc : req.params.cpf = .str cpf) :
    Handler.get.run env req w
      = ⟨[lookupReply (t.filter (fun r => r.cpf == cpf))],
          { w with now := w.now + env.elapsed }, none⟩ := by
  obtain ⟨ha, he⟩ := henv
  rcases w with ⟨⟨held⟩, tbl, now, coll⟩
  simp only at ht
  subst ht
  cases hf : t.filter (fun r => r.cpf == cpf) <;>
    simp [Handler.run, Handler.body, tryCatch, getBody, getConnection, connectionExecute,
      execute, bindParams, runStatement, release, resJson, ha, he, hc, hf, lookupReply,
      ExecResult.asRows, notFound]

/-- The create handler in a healthy environment, for a valid record. -/
theorem create_run (env : Env) (prm : Params) (w : World) (t : List Cadastro) (cpf : String)
    (c : Columns) (d : SqlDate) (henv : env.healthy) (ht : w.table = some t)
    (hk : varcharOk 14 cpf = true) (hv : c.valid = true)
    (hdate : parseDate c.data_nascimento = some d) :
    Handler.create.run env ⟨prm, some (bodyOf (.str cpf) c)⟩ w
      = if t.any (fun r => r.cpf == cpf) then
          ⟨[⟨500, failureError (dupEntry cpf)⟩], w.acquired, none⟩
        else
          ⟨[⟨200, successMessage "Paciente cadastrado com sucesso!"⟩],
            { w with table := some (t ++ [insertedRow (w.now + env.elapsed) cpf (c.toRow d)]),
                     now := w.now + env.elapsed }, none⟩ := by
  obtain ⟨ha, he⟩ := henv
  rcases w with ⟨⟨held⟩, tbl, now, coll⟩
  simp only at ht
  subst ht
  have hb : bindParams [.str cpf, .str c.nome_completo, .str c.data_nascimento, .str c.sexo,
      .str c.telefone, .str c.quarto_leito, .str c.queixa_principal, jsOfOption c.observacoes]
      = .ok [some cpf, some c.nome_completo, some c.data_nascimento, some c.sexo,
        some c.telefone, some c.quarto_leito, some c.queixa_principal, c.observacoes] := by
    rw [bindParams, bindParams_columns c [] [] rfl]
  have hc := checkColumns_valid c d hv hdate
  have hx := execute_of_table env .insertQuery _ ⟨⟨held + 1⟩, some t, now, coll⟩ t _ he rfl hb
  by_cases hd : t.any (fun r => r.cpf == cpf) = true
  · have hd2 : ∃ x ∈ t, x.cpf = cpf := by simpa using hd
    simp only [runStatement, requiredColumn, hk, hc, hd, if_true] at hx
    simp [Handler.run, Handler.body, tryCatch, createBody, getConnection, connectionExecute,
      ha, bodyOf, resJson, hd2, hx, World.acquired, dupEntry]
  · have hd2 : ¬ ∃ x ∈ t, x.cpf = cpf := by simpa using hd
    simp only [runStatement, requiredColumn, hk, hc, hd, if_true] at hx
    simp [Handler.run, Handler.body, tryCatch, createBody, getConnection, connectionExecute,
      ha, bodyOf, resJson, hd2, hx, release, insertedRow]


/-! ## Lookup -/

/-- C4: in a healthy environment with the table in place, the lookup answers
200 with a single record exactly when a record with that key exists, and that
record is one of the table with the key asked for; otherwise it answers 404
with `success: false`.  The response never carries a sequence of records, and
a 200 always carries data. -/
theorem get_by_key (env : Env) (req : Req) (w : World) (t : List Cadastro) (cpf : String)
    (henv : env.healthy) (ht : w.table = some t) (hc : req.params.cpf = .str cpf) :
    (∀ r, (Handler.get.run env req w).sent = [⟨200, successData (.record r)⟩] →
        r ∈ t ∧ r.cpf = cpf)
      ∧ ((∃ r ∈ t, r.cpf = cpf) →
          ∃ r, (Handler.get.run env req w).sent = [⟨200, successData (.record r)⟩])
      ∧ ((∀ r ∈ t, r.cpf ≠ cpf) → (Handler.get.run env req w).sent = [notFound])
      ∧ (∀ resp ∈ (Handler.get.run env req w).sent, ∀ e, resp.body = .envelope e →
          (∀ rs, e.data ≠ some (.records rs)) ∧ (resp.status = 200 → e.data ≠ none)) := by
  rw [get_run env req w t cpf henv ht hc]
  cases hf : t.filter (fun r => r.cpf == cpf) with
  | nil =>
    have hno : ∀ r ∈ t, r.cpf ≠ cpf := by
      intro r hr hk
      have : r ∈ t.filter (fun r => r.cpf == cpf) := by simp [List.mem_filter, hr, hk]
      simp [hf] at this
    refine ⟨?_, ?_, ?_, ?_⟩
    · intro r h
      simp [lookupReply, notFound] at h
    · rintro ⟨r, hr, hk⟩
      exact absurd hk (hno r hr)
    · intro _
      simp [lookupReply]
    · intro resp hmem e hb
      simp [lookupReply, notFound] at hmem
      subst hmem
      simp at hb
      subst hb
      simp
  | cons r0 rest =>
    have hmem0 : r0 ∈ t.filter (fun r => r.cpf == cpf) := by simp [hf]
    have h0 : r0 ∈ t ∧ r0.cpf = cpf := by simpa [List.mem_filter] using hmem0
    refine ⟨?_, ?_, ?_, ?_⟩
    · intro r h
      simp [lookupReply, successData] at h
      subst h
      exact h0
    · intro _
      exact ⟨r0, by simp [lookupReply]⟩
    · intro hno
      exact absurd h0.2 (hno r0 h0.1)
    · intro resp hmem e hb
      simp [lookupReply, successData] at hmem
      subst hmem
      simp at hb
      subst hb
      simp

/-- Witness for C4: the lookup of the key of the one stored record. -/
theorem get_by_key_witness :
    calm.healthy ∧ mariaWorld.table = some [mariaRow]
      ∧ ∃ r, (Handler.get.run calm ⟨⟨.str "123.456.789-00", .undefined⟩, none⟩ mariaWorld).sent
          = [⟨200, successData (.record r)⟩] :=
  ⟨⟨rfl, rfl⟩, rfl,
    (get_by_key calm ⟨⟨.str "123.456.789-00", .undefined⟩, none⟩ mariaWorld [mariaRow]
      "123.456.789-00" ⟨rfl, rfl⟩ rfl rfl).2.1 ⟨mariaRow, by simp, rfl⟩⟩

/-! ## Create -/

/-- C6 (fails on the code): on a server whose clock is on UTC, the record of
the scenario is created and looked up; the JSON of the lookup carries the
birth date as the timestamp `1990-05-01T00:00:00.000Z`, which is not the
posted `1990-05-01`. -/
theorem create_then_get_date_as_timestamp :
    (Handler.get.run calm ⟨⟨.str "123.456.789-00", .undefined⟩, none⟩
        (Handler.create.run calm ⟨⟨.undefined, .undefined⟩,
          some (bodyOf (.str "123.456.789-00") maria)⟩ emptyWorld).world).sent
        = [⟨200, .envelope ⟨true, some (.record mariaRow), none, none, none⟩⟩]
      ∧ (mariaRow.toJson calm).data_nascimento = "1990-05-01T00:00:00.000Z"
      ∧ (mariaRow.toJson calm).data_nascimento ≠ maria.data_nascimento := by
  decide

/-- C6 (amended): a record whose fields the store accepts as they are, with
a fresh key, is created with success, and the lookup of its key that follows
answers 200 with one record whose JSON carries the key and the six texts of
the body, each in the column of the same meaning (`observacoes` may be
null), and for the birth date the ISO timestamp of the local midnight of the
day the posted literal names; the two timestamps are the time of the
insert. -/
theorem create_then_get (env1 env2 : Env) (prm : Params) (nome2 : JsVal)
    (body2 : Option ReqBody) (w : World) (t : List Cadastro) (cpf : String) (c : Columns)
    (h1 : env1.healthy) (h2 : env2.healthy) (ht : w.table = some t)
    (hfresh : ∀ r ∈ t, r.cpf ≠ cpf) (hk : varcharOk 14 cpf = true) (hv : c.valid = true) :
    (Handler.create.run env1 ⟨prm, some (bodyOf (.str cpf) c)⟩ w).sent
        = [⟨200, .envelope ⟨true, none, some "Paciente cadastrado com sucesso!", none, none⟩⟩]
      ∧ ∃ r d, (Handler.get.run env2 ⟨⟨.str cpf, nome2⟩, body2⟩
            (Handler.create.run env1 ⟨prm, some (bodyOf (.str cpf) c)⟩ w).world).sent
          = [⟨200, .envelope ⟨true, some (.record r), none, none, none⟩⟩]
        ∧ parseDate c.data_nascimento = some d
        ∧ r.toJson env2
          = ⟨cpf, c.nome_completo, isoDate (env2.utcOffset d) d, c.sexo, c.telefone,
              c.quarto_leito, c.queixa_principal, c.observacoes, w.now + env1.elapsed,
              w.now + env1.elapsed⟩ := by
  obtain ⟨d, hd⟩ := valid_date c hv
  have hdup : ¬ (t.any (fun r => r.cpf == cpf) = true) := by
    simpa using hfresh
  have hf : t.filter (fun r => r.cpf == cpf) = [] := by
    simpa [List.filter_eq_nil_iff] using hfresh
  rw [create_run env1 prm w t cpf c d h1 ht hk hv hd, if_neg hdup]
  refine ⟨rfl, insertedRow (w.now + env1.elapsed) cpf (c.toRow d), d, ?_, hd, rfl⟩
  rw [get_run env2 _ _ (t ++ [insertedRow (w.now + env1.elapsed) cpf (c.toRow d)]) cpf h2 rfl rfl]
  simp [List.filter_append, hf, insertedRow, lookupReply, successData]

/-- Witness for C6 (amended): the record of the scenario, created in an
empty table. -/
theorem create_then_get_witness :
    calm.healthy ∧ emptyWorld.table = some [] ∧ (∀ r ∈ ([] : List Cadastro), r.cpf ≠ "123.456.789-00")
      ∧ varcharOk 14 "123.456.789-00" = true ∧ maria.valid = true
      ∧ (Handler.create.run calm ⟨⟨.undefined, .undefined⟩,
          some (bodyOf (.str "123.456.789-00") maria)⟩ emptyWorld).sent
        = [⟨200, .envelope ⟨true, none, some "Paciente cadastrado com sucesso!", none,
            none⟩⟩] :=
  ⟨⟨rfl, rfl⟩, rfl, by simp, by decide, by decide,
    (create_then_get calm calm ⟨.undefined, .undefined⟩ .undefined none emptyWorld []
      "123.456.789-00" maria ⟨rfl, rfl⟩ ⟨rfl, rfl⟩ rfl (by simp) (by decide) (by decide)).1⟩

/-! ## Create on a stored key -/

/-- Bound parameters keep the first string parameter and the number of
parameters. -/
theorem bindParams_cons_str (c : String) (ps : List JsVal) (vs : List SqlVal)
    (hb : bindParams (.str c :: ps) = .ok vs) :
    ∃ vs2, vs = some c :: vs2 ∧ bindParams ps = .ok vs2 := by
  rw [bindParams] at hb
  cases hps : bindParams ps with
  | error e => simp [hps] at hb
  | ok vs2 =>
    simp [hps] at hb
    exact ⟨vs2, hb.symm, rfl⟩

/-- The insert statement fails on a table that holds its key. -/
theorem runStatement_insert_existing (weight : Char → Nat) (now : Nat) (t : List Cadastro)
    (c : String) (vs : List SqlVal) (hex : ∃ r ∈ t, r.cpf = c) :
    ∃ e, runStatement weight now t .insertQuery (some c :: vs) = .error e := by
  match vs with
  | [nome, dn, sexo, tel, ql, qp, obs] =>
    by_cases hk : varcharOk 14 c = true
    · cases hcc : checkColumns nome dn sexo tel ql qp obs with
      | error e => exact ⟨e, by simp [runStatement, requiredColumn, hk, hcc]⟩
      | ok cols => exact ⟨_, by simp [runStatement, requiredColumn, hk, hcc, hex]; rfl⟩
    · exact ⟨_, by simp [runStatement, requiredColumn, hk]; rfl⟩
  | [] => exact ⟨_, rfl⟩
  | [_] => exact ⟨_, rfl⟩
  | [_, _] => exact ⟨_, rfl⟩
  | [_, _, _] => exact ⟨_, rfl⟩
  | [_, _, _, _] => exact ⟨_, rfl⟩
  | [_, _, _, _, _] => exact ⟨_, rfl⟩
  | [_, _, _, _, _, _] => exact ⟨_, rfl⟩
  | _ :: _ :: _ :: _ :: _ :: _ :: _ :: _ :: _ => exact ⟨_, rfl⟩

/-- An insert whose key is already in the table fails, whatever else the
parameters are and whatever the environment does. -/
theorem insert_existing_fails (env : Env) (c : String) (ps : List JsVal) (w : World)
    (t : List Cadastro) (ht : w.table = some t) (hex : ∃ r ∈ t, r.cpf = c) :
    ∃ e, execute env .insertQuery (.str c :: ps) w = .error e := by
  cases hb : bindParams (.str c :: ps) with
  | error e => exact ⟨e, by simp [execute, hb]⟩
  | ok vs =>
    cases he : env.exec with
    | some e => exact ⟨e, by simp [execute, hb, he]⟩
    | none =>
      obtain ⟨vs2, rfl, -⟩ := bindParams_cons_str c ps vs hb
      obtain ⟨e, hr⟩ := runStatement_insert_existing w.collation (w.now + env.elapsed) t c vs2 hex
      exact ⟨e, by rw [execute_of_table env .insertQuery _ w t _ he ht hb, hr]⟩

/-- C7: a create whose key is already stored fails with status 500 and
`success: false`, and leaves the table as it was; when the record is valid
and the environment healthy the failure is the duplicate-key violation. -/
theorem create_existing_key (env : Env) (req : Req) (b : ReqBody) (w : World)
    (t : List Cadastro) (c : String) (ht : w.table = some t) (hb : req.body = some b)
    (hc : b.cpf = .str c) (hex : ∃ r ∈ t, r.cpf = c) :
    (∃ e, (Handler.create.run env req w).sent = [⟨500, failureError e⟩])
      ∧ (Handler.create.run env req w).world.table = some t
      ∧ (∀ cols, env.healthy → b = bodyOf (.str c) cols → cols.valid = true →
          varcharOk 14 c = true →
          (Handler.create.run env req w).sent = [⟨500, failureError (dupEntry c)⟩]) := by
  have hs : Handler.create.statement req = some (.insertQuery,
      [.str c, b.nomeCompleto, b.dataNascimento, b.sexo, b.telefone, b.quartoLeito,
        b.queixaPrincipal, b.observacoes]) := by
    simp [Handler.statement, hb, hc]
  have hthrown : ∃ e w2, Handler.create.body env req ⟨w, []⟩ = .thrown e ⟨w2, []⟩
      ∧ w2.table = some t := by
    cases ha : env.acquire with
    | some e =>
      exact ⟨e, w, body_of_acquire_error _ env req w _ _ e hs ha, ht⟩
    | none =>
      obtain ⟨e, hx⟩ := insert_existing_fails env c _ w.acquired t
        (by simpa [World.acquired] using ht) hex
      exact ⟨e, w.acquired, body_of_execute_error _ env req w _ _ e hs ha hx,
        by simpa [World.acquired] using ht⟩
  obtain ⟨e, w2, hbody, hw2⟩ := hthrown
  refine ⟨⟨e, ?_⟩, ?_, ?_⟩
  · simp [Handler.run, tryCatch_thrown _ w w2 e hbody]
  · simp [Handler.run, tryCatch_thrown _ w w2 e hbody, hw2]
  · intro cols henv hbc hv hk
    have hany : t.any (fun r => r.cpf == c) = true := by simpa using hex
    have hreq : req = ⟨req.params, some (bodyOf (.str c) cols)⟩ := by
      rcases req with ⟨prm, bd⟩
      simp_all
    obtain ⟨d, hd⟩ := valid_date cols hv
    rw [hreq, create_run env req.params w t c cols d henv ht hk hv hd, if_pos hany]

/-- Witness for C7: the record of the scenario created a second time. -/
theorem create_existing_key_witness :
    mariaWorld.table = some [mariaRow] ∧ (∃ r ∈ [mariaRow], r.cpf = "123.456.789-00")
      ∧ (Handler.create.run calm ⟨⟨.undefined, .undefined⟩,
          some (bodyOf (.str "123.456.789-00") maria)⟩ mariaWorld).world.table
        = some [mariaRow] :=
  ⟨rfl, ⟨mariaRow, by simp, rfl⟩,
    (create_existing_key calm ⟨⟨.undefined, .undefined⟩,
        some (bodyOf (.str "123.456.789-00") maria)⟩ (bodyOf (.str "123.456.789-00") maria)
      mariaWorld [mariaRow] "123.456.789-00" rfl rfl rfl ⟨mariaRow, by simp, rfl⟩).2.1⟩

/-! ## Update and delete -/

/-- Parameters none of which is `undefined` all bind. -/
theorem bindParams_of_defined (ps : List JsVal) (hd : ∀ p ∈ ps, p ≠ .undefined) :
    bindParams ps = .ok (ps.map JsVal.toSql) := by
  induction ps with
  | nil => rfl
  | cons p ps ih =>
    have ih2 := ih (fun q hq => hd q (List.mem_cons_of_mem _ hq))
    cases p with
    | undefined => exact absurd rfl (hd _ (List.mem_cons_self _ _))
    | null => simp [bindParams, ih2, JsVal.toSql]
    | str s => simp [bindParams, ih2, JsVal.toSql]

/-- The delete handler in a healthy environment: it answers 200 and removes
the rows of the key. -/
theorem delete_run (env : Env) (req : Req) (w : World) (t : List Cadastro) (cpf : String)
    (henv : env.healthy) (ht : w.table = some t) (hc : req.params.cpf = .str cpf) :
    Handler.delete.run env req w
      = ⟨[⟨200, successMessage "Paciente deletado com sucesso!"⟩],
          { w with table := some (t.filter (otherKey cpf)), now := w.now + env.elapsed },
          none⟩ := by
  obtain ⟨ha, he⟩ := henv
  rcases w with ⟨⟨held⟩, tbl, now, coll⟩
  simp only at ht
  subst ht
  have hx := execute_of_table env .deleteQuery [.str cpf] ⟨⟨held + 1⟩, some t, now, coll⟩ t
    [some cpf] he rfl rfl
  simp only [runStatement] at hx
  simp [Handler.run, Handler.body, tryCatch, deleteBody, getConnection, connectionExecute,
    ha, hc, hx, release, resJson]
  rfl

/-- The update handler in a healthy environment when no row has the key:
it answers 200 and leaves the table as it was. -/
theorem update_run_absent (env : Env) (req : Req) (b : ReqBody) (w : World)
    (t : List Cadastro) (cpf : String) (henv : env.healthy) (ht : w.table = some t)
    (hc : req.params.cpf = .str cpf) (hb : req.body = some b)
    (hd : ∀ p ∈ b.mutableFields, p ≠ .undefined) (habs : ∀ r ∈ t, r.cpf ≠ cpf) :
    Handler.update.run env req w
      = ⟨[⟨200, successMessage "Paciente atualizado com sucesso!"⟩],
          { w with now := w.now + env.elapsed }, none⟩ := by
  obtain ⟨ha, he⟩ := henv
  rcases w with ⟨⟨held⟩, tbl, now, coll⟩
  simp only at ht
  subst ht
  have hany : ¬ ∃ x ∈ t, x.cpf = cpf := by
    rintro ⟨x, hx, hk⟩
    exact habs x hx hk
  have hbind := bindParams_of_defined (b.mutableFields ++ [.str cpf]) (by
    intro p hp
    rcases List.mem_append.mp hp with h | h
    · exact hd p h
    · simp at h
      simp [h])
  simp only [ReqBody.mutableFields, List.cons_append, List.nil_append, List.map] at hbind
  have hx := execute_of_table env .updateQuery _ ⟨⟨held + 1⟩, some t, now, coll⟩ t _ he rfl hbind
  simp [runStatement, JsVal.toSql, hany] at hx
  rcases req with ⟨prm, bd⟩
  simp only at hc hb
  subst hb
  simp [Handler.run, Handler.body, tryCatch, updateBody, getConnection, connectionExecute,
    ha, hc, hx, release, resJson]

/-- The update handler in a healthy environment, for valid columns and a key
that is stored: it answers 200 and rewrites the rows of the key. -/
theorem update_run_present (env : Env) (prm : Params) (bodyCpf : JsVal) (w : World)
    (t : List Cadastro) (cpf : String) (c : Columns) (d : SqlDate) (henv : env.healthy)
    (ht : w.table = some t) (hc : prm.cpf = .str cpf) (hv : c.valid = true)
    (hdate : parseDate c.data_nascimento = some d) (hex : ∃ r ∈ t, r.cpf = cpf) :
    Handler.update.run env ⟨prm, some (bodyOf bodyCpf c)⟩ w
      = ⟨[⟨200, successMessage "Paciente atualizado com sucesso!"⟩],
          { w with
            table := some (t.map (fun r =>
              if hasKey cpf r then updatedRow (w.now + env.elapsed) (c.toRow d) r else r)),
            now := w.now + env.elapsed }, none⟩ := by
  obtain ⟨ha, he⟩ := henv
  rcases w with ⟨⟨held⟩, tbl, now, coll⟩
  simp only at ht
  subst ht
  have hbind := bindParams_columns c [.str cpf] [some cpf] rfl
  have hcols := checkColumns_valid c d hv hdate
  have hx := execute_of_table env .updateQuery _ ⟨⟨held + 1⟩, some t, now, coll⟩ t _ he rfl hbind
  simp [runStatement, hex, hcols] at hx
  simp [Handler.run, Handler.body, tryCatch, updateBody, getConnection, connectionExecute,
    ha, hc, hx, release, resJson, bodyOf, hasKey]

/-- C9: for a key that no record has, and with the environment healthy,
every delete of the key (whatever else the request carries) and every update
of the key whose body has its seven fields answer 200 with
`{ success: true, message }`, and leave the table as it was: nothing is
created and nothing is removed. -/
theorem update_delete_absent_key (env : Env) (w : World) (t : List Cadastro) (cpf : String)
    (henv : env.healthy) (ht : w.table = some t) (habs : ∀ r ∈ t, r.cpf ≠ cpf) :
    (∀ req : Req, req.params.cpf = .str cpf →
        (Handler.delete.run env req w).sent
            = [⟨200, .envelope ⟨true, none, some "Paciente deletado com sucesso!", none, none⟩⟩]
          ∧ (Handler.delete.run env req w).world.table = some t)
      ∧ (∀ (req : Req) (b : ReqBody), req.params.cpf = .str cpf → req.body = some b →
          (∀ p ∈ b.mutableFields, p ≠ .undefined) →
          (Handler.update.run env req w).sent
              = [⟨200, .envelope ⟨true, none, some "Paciente atualizado com sucesso!", none,
                  none⟩⟩]
            ∧ (Handler.update.run env req w).world.table = some t) := by
  have hf : t.filter (otherKey cpf) = t := by
    rw [List.filter_eq_self]
    intro r hr
    simpa [otherKey] using habs r hr
  constructor
  · intro req hc
    rw [delete_run env req w t cpf henv ht hc]
    exact ⟨rfl, by simp [hf]⟩
  · intro req b hc hb hd
    rw [update_run_absent env req b w t cpf henv ht hc hb hd habs]
    exact ⟨rfl, ht⟩

/-- Witness for C9: a delete without a body of a key that is not stored. -/
theorem update_delete_absent_key_witness :
    calm.healthy ∧ mariaWorld.table = some [mariaRow]
      ∧ (∀ r ∈ [mariaRow], r.cpf ≠ "000.000.000-00")
      ∧ (Handler.delete.run calm ⟨⟨.str "000.000.000-00", .undefined⟩, none⟩ mariaWorld).sent
          = [⟨200, .envelope ⟨true, none, some "Paciente deletado com sucesso!", none, none⟩⟩]
      ∧ (Handler.delete.run calm ⟨⟨.str "000.000.000-00", .undefined⟩, none⟩
          mariaWorld).world.table = some [mariaRow] :=
  ⟨⟨rfl, rfl⟩, rfl, by decide,
    (update_delete_absent_key calm mariaWorld [mariaRow] "000.000.000-00" ⟨rfl, rfl⟩ rfl
      (by decide)).1 ⟨⟨.str "000.000.000-00", .undefined⟩, none⟩ rfl⟩

/-! ## Delete -/

/-- Removing the rows of a key from a table with distinct keys removes one
row when the key is stored. -/
theorem length_filter_otherKey (cpf : String) (t : List Cadastro)
    (hkeys : (t.map (fun r => r.cpf)).Nodup) (hex : ∃ r ∈ t, r.cpf = cpf) :
    (t.filter (otherKey cpf)).length + 1 = t.length := by
  induction t with
  | nil => simp at hex
  | cons a t ih =>
    simp only [List.map_cons, List.nodup_cons] at hkeys
    by_cases ha : a.cpf = cpf
    · have hrest : t.filter (otherKey cpf) = t := by
        rw [List.filter_eq_self]
        intro r hr
        have : r.cpf ≠ cpf := by
          intro hk
          exact hkeys.1 (List.mem_map.mpr ⟨r, hr, by rw [hk, ha]⟩)
        simpa [otherKey] using this
      simp [List.filter_cons, otherKey, ha]
      simpa [otherKey] using congrArg List.length hrest
    · have hex2 : ∃ r ∈ t, r.cpf = cpf := by
        obtain ⟨r, hr, hk⟩ := hex
        rcases List.mem_cons.mp hr with rfl | hr
        · exact absurd hk ha
        · exact ⟨r, hr, hk⟩
      have := ih hkeys.2 hex2
      simp [List.filter_cons, otherKey, ha]
      simpa [otherKey] using this

/-- C10: in a healthy environment with the table in place (keys distinct, as
the primary key keeps them) a delete answers with success, a lookup of the
key that follows answers 404, the records of every other key stay as they
were, and the number of records drops by one when the key was stored and by
none otherwise. -/
theorem delete_then_get (env1 env2 : Env) (req : Req) (nome2 : JsVal)
    (body2 : Option ReqBody) (w : World) (t : List Cadastro) (cpf : String)
    (h1 : env1.healthy) (h2 : env2.healthy) (ht : w.table = some t)
    (hc : req.params.cpf = .str cpf) (hkeys : (t.map (fun r => r.cpf)).Nodup) :
    (Handler.delete.run env1 req w).sent
        = [⟨200, .envelope ⟨true, none, some "Paciente deletado com sucesso!", none, none⟩⟩]
      ∧ (Handler.get.run env2 ⟨⟨.str cpf, nome2⟩, body2⟩
          (Handler.delete.run env1 req w).world).sent = [notFound]
      ∧ ∃ t2, (Handler.delete.run env1 req w).world.table = some t2
        ∧ (∀ r ∈ t2, r.cpf ≠ cpf)
        ∧ t2.filter (otherKey cpf) = t.filter (otherKey cpf)
        ∧ ((∃ r ∈ t, r.cpf = cpf) → t2.length + 1 = t.length)
        ∧ ((∀ r ∈ t, r.cpf ≠ cpf) → t2.length = t.length) := by
  rw [delete_run env1 req w t cpf h1 ht hc]
  have hnone : ∀ r ∈ t.filter (otherKey cpf), r.cpf ≠ cpf := by
    intro r hr
    have := (List.mem_filter.mp hr).2
    simpa [otherKey] using this
  refine ⟨rfl, ?_, t.filter (otherKey cpf), rfl, hnone, ?_, ?_, ?_⟩
  · rw [get_run env2 _ _ (t.filter (otherKey cpf)) cpf h2 rfl rfl]
    have hf : (t.filter (otherKey cpf)).filter (fun r => r.cpf == cpf) = [] := by
      rw [List.filter_eq_nil_iff]
      intro r hr
      simpa using hnone r hr
    simp [hf, lookupReply]
  · simp [List.filter_filter]
  · exact length_filter_otherKey cpf t hkeys
  · intro habs
    have hf : t.filter (otherKey cpf) = t := by
      rw [List.filter_eq_self]
      intro r hr
      simpa [otherKey] using habs r hr
    rw [hf]

/-- Witness for C10: the delete of the one stored record. -/
theorem delete_then_get_witness :
    calm.healthy ∧ mariaWorld.table = some [mariaRow]
      ∧ ([mariaRow].map (fun r => r.cpf)).Nodup
      ∧ (Handler.get.run calm ⟨⟨.str "123.456.789-00", .undefined⟩, none⟩
          (Handler.delete.run calm ⟨⟨.str "123.456.789-00", .undefined⟩, none⟩
            mariaWorld).world).sent = [notFound] :=
  ⟨⟨rfl, rfl⟩, rfl, by simp,
    (delete_then_get calm calm ⟨⟨.str "123.456.789-00", .undefined⟩, none⟩ .undefined none
      mariaWorld [mariaRow] "123.456.789-00" ⟨rfl, rfl⟩ ⟨rfl, rfl⟩ rfl rfl (by simp)).2.1⟩

/-! ## Update -/

/-- The rewritten row keeps key and creation time, carries the new columns,
and its update time does not go back when the clock has not. -/
theorem updatedRow_spec (now : Nat) (c : RowColumns) (r : Cadastro)
    (hnow : r.updated_at ≤ now) :
    (updatedRow now c r).cpf = r.cpf
      ∧ (updatedRow now c r).created_at = r.created_at
      ∧ r.updated_at ≤ (updatedRow now c r).updated_at
      ∧ (updatedRow now c r).nome_completo = c.nome_completo
      ∧ (updatedRow now c r).data_nascimento = c.data_nascimento
      ∧ (updatedRow now c r).sexo = c.sexo
      ∧ (updatedRow now c r).telefone = c.telefone
      ∧ (updatedRow now c r).quarto_leito = c.quarto_leito
      ∧ (updatedRow now c r).queixa_principal = c.queixa_principal
      ∧ (updatedRow now c r).observacoes = c.observacoes := by
  unfold updatedRow
  simp only
  split
  · next h =>
    have h2 := congrArg Cadastro.nome_completo h
    have h3 := congrArg Cadastro.data_nascimento h
    have h4 := congrArg Cadastro.sexo h
    have h5 := congrArg Cadastro.telefone h
    have h6 := congrArg Cadastro.quarto_leito h
    have h7 := congrArg Cadastro.queixa_principal h
    have h8 := congrArg Cadastro.observacoes h
    simp only at h2 h3 h4 h5 h6 h7 h8
    exact ⟨rfl, rfl, le_refl _, h2.symm, h3.symm, h4.symm, h5.symm, h6.symm, h7.symm, h8.symm⟩
  · exact ⟨rfl, rfl, hnow, rfl, rfl, rfl, rfl, rfl, rfl, rfl⟩

/-- Rows of the key, after the rows of the key were rewritten. -/
theorem filter_hasKey_map (cpf : String) (f : Cadastro → Cadastro)
    (hf : ∀ r, (f r).cpf = r.cpf) (t : List Cadastro) :
    (t.map (fun r => if hasKey cpf r then f r else r)).filter (fun r => r.cpf == cpf)
      = (t.filter (fun r => r.cpf == cpf)).map f := by
  induction t with
  | nil => rfl
  | cons a t ih =>
    by_cases ha : a.cpf = cpf
    · simp [List.filter_cons, hasKey, ha, hf] at ih ⊢
      exact ih
    · simp [List.filter_cons, hasKey, ha] at ih ⊢
      exact ih

/-- Rows of the other keys, after the rows of the key were rewritten. -/
theorem filter_otherKey_map (cpf : String) (f : Cadastro → Cadastro) (t : List Cadastro) :
    (t.map (fun r => if hasKey cpf r then f r else r)).filter (otherKey cpf)
        = t.filter (otherKey cpf)
      ∨ ∃ r ∈ t, r.cpf = cpf ∧ (f r).cpf ≠ cpf := by
  induction t with
  | nil => exact Or.inl rfl
  | cons a t ih =>
    rcases ih with ih | ⟨r, hr, hk, hne⟩
    · by_cases ha : a.cpf = cpf
      · by_cases hfa : (f a).cpf = cpf
        · left
          simp [List.filter_cons, hasKey, otherKey, ha, hfa] at ih ⊢
          exact ih
        · exact Or.inr ⟨a, List.mem_cons_self _ _, ha, hfa⟩
      · left
        simp [List.filter_cons, hasKey, otherKey, ha] at ih ⊢
        exact ih
    · exact Or.inr ⟨r, List.mem_cons_of_mem _ hr, hk, hne⟩

/-- C8 (fails on the code): on a server whose clock is on UTC, the stored
record of the scenario is updated and looked up; the JSON of the lookup
carries the birth date as the timestamp `1990-05-01T00:00:00.000Z`, which is
not the `1990-05-01` of the body. -/
theorem update_then_get_date_as_timestamp :
    (Handler.get.run calm ⟨⟨.str "123.456.789-00", .undefined⟩, none⟩
        (Handler.update.run calm ⟨⟨.str "123.456.789-00", .undefined⟩,
          some (bodyOf (.str "999") mariaUpdate)⟩ mariaWorld).world).sent
        = [⟨200, .envelope ⟨true, some (.record mariaUpdatedRow), none, none, none⟩⟩]
      ∧ (mariaUpdatedRow.toJson calm).data_nascimento = "1990-05-01T00:00:00.000Z"
      ∧ (mariaUpdatedRow.toJson calm).data_nascimento ≠ mariaUpdate.data_nascimento := by
  decide

/-- C8 (amended): in a healthy environment, for a stored key and a body
whose fields the store accepts as they are, the update answers with success
and the lookup that follows answers 200 with one record whose JSON carries
the six texts of the body and, for the birth date, the ISO timestamp of the
local midnight of the day the posted literal names; against the record the
lookup returned before, the key and the creation time are the same and the
update time is not smaller; the records of every other key are as they were;
the key is the path parameter, whatever `cpf` the body carries. -/
theorem update_then_get (env1 env2 : Env) (nome1 nome2 bodyCpf : JsVal)
    (body2 : Option ReqBody) (w : World) (t : List Cadastro) (cpf : String) (c : Columns)
    (h1 : env1.healthy) (h2 : env2.healthy) (ht : w.table = some t)
    (hex : ∃ r ∈ t, r.cpf = cpf) (hv : c.valid = true)
    (hclock : ∀ r ∈ t, r.updated_at ≤ w.now) :
    (Handler.update.run env1 ⟨⟨.str cpf, nome1⟩, some (bodyOf bodyCpf c)⟩ w).sent
        = [⟨200, .envelope ⟨true, none, some "Paciente atualizado com sucesso!", none, none⟩⟩]
      ∧ ∃ t2 r0 r d,
          (Handler.update.run env1 ⟨⟨.str cpf, nome1⟩, some (bodyOf bodyCpf c)⟩ w).world.table
            = some t2
        ∧ t2.filter (otherKey cpf) = t.filter (otherKey cpf)
        ∧ (Handler.get.run env2 ⟨⟨.str cpf, nome2⟩, body2⟩ w).sent
            = [⟨200, .envelope ⟨true, some (.record r0), none, none, none⟩⟩]
        ∧ (Handler.get.run env2 ⟨⟨.str cpf, nome2⟩, body2⟩
            (Handler.update.run env1 ⟨⟨.str cpf, nome1⟩, some (bodyOf bodyCpf c)⟩ w).world).sent
            = [⟨200, .envelope ⟨true, some (.record r), none, none, none⟩⟩]
        ∧ parseDate c.data_nascimento = some d
        ∧ r0.updated_at ≤ r.updated_at
        ∧ r.toJson env2
          = ⟨cpf, c.nome_completo, isoDate (env2.utcOffset d) d, c.sexo, c.telefone,
              c.quarto_leito, c.queixa_principal, c.observacoes, r0.created_at,
              r.updated_at⟩ := by
  obtain ⟨d, hd⟩ := valid_date c hv
  rw [update_run_present env1 ⟨.str cpf, nome1⟩ bodyCpf w t cpf c d h1 ht rfl hv hd hex]
  obtain ⟨x, hx, hxk⟩ := hex
  cases hf : t.filter (fun r => r.cpf == cpf) with
  | nil =>
    have : x ∈ t.filter (fun r => r.cpf == cpf) := by simp [List.mem_filter, hx, hxk]
    simp [hf] at this
  | cons r0 rest =>
    have hmem0 : r0 ∈ t.filter (fun r => r.cpf == cpf) := by simp [hf]
    have h0 : r0 ∈ t ∧ r0.cpf = cpf := by simpa [List.mem_filter] using hmem0
    have hnow : r0.updated_at ≤ w.now + env1.elapsed :=
      le_trans (hclock r0 h0.1) (Nat.le_add_right _ _)
    obtain ⟨s1, s2, s3, s4, s5, s6, s7, s8, s9, s10⟩ :=
      updatedRow_spec (w.now + env1.elapsed) (c.toRow d) r0 hnow
    refine ⟨rfl, _, r0, updatedRow (w.now + env1.elapsed) (c.toRow d) r0, d, rfl, ?_, ?_, ?_,
      hd, s3, ?_⟩
    · rcases filter_otherKey_map cpf (updatedRow (w.now + env1.elapsed) (c.toRow d)) t with
        h | ⟨r, hr, hk, hne⟩
      · exact h
      · have hle : r.updated_at ≤ w.now + env1.elapsed :=
          le_trans (hclock r hr) (Nat.le_add_right _ _)
        exact absurd ((updatedRow_spec (w.now + env1.elapsed) (c.toRow d) r hle).1.trans hk) hne
    · rw [get_run env2 _ w t cpf h2 ht rfl, hf]
      rfl
    · rw [get_run env2 _ _ _ cpf h2 rfl rfl,
        filter_hasKey_map cpf (updatedRow (w.now + env1.elapsed) (c.toRow d)) ?_ t, hf]
      · rfl
      · intro r
        unfold updatedRow
        simp only
        split <;> rfl
    · simp only [Cadastro.toJson, s1, s2, s4, s5, s6, s7, s8, s9, s10, h0.2]
      rfl

/-- Witness for C8 (amended): the stored record of the scenario gets a new
phone and room. -/
theorem update_then_get_witness :
    calm.healthy ∧ mariaWorld.table = some [mariaRow]
      ∧ (∃ r ∈ [mariaRow], r.cpf = "123.456.789-00")
      ∧ mariaUpdate.valid = true
      ∧ (∀ r ∈ [mariaRow], r.updated_at ≤ mariaWorld.now)
      ∧ (Handler.update.run calm ⟨⟨.str "123.456.789-00", .undefined⟩,
          some (bodyOf (.str "999") mariaUpdate)⟩ mariaWorld).sent
        = [⟨200, .envelope ⟨true, none, some "Paciente atualizado com sucesso!", none, none⟩⟩] :=
  ⟨⟨rfl, rfl⟩, rfl, ⟨mariaRow, by simp, rfl⟩, by decide, by decide,
    (update_then_get calm calm .undefined .undefined (.str "999") none mariaWorld [mariaRow]
      "123.456.789-00" mariaUpdate ⟨rfl, rfl⟩ ⟨rfl, rfl⟩ rfl
      ⟨mariaRow, by simp, rfl⟩ (by decide) (by decide)).1⟩

/-! ## Search -/

/-- The characters of the pattern the search handler builds. -/
theorem search_pattern_data (s : String) :
    ("%" ++ s ++ "%").data = '%' :: (s.data ++ ['%']) := by
  simp [String.data_append]

/-- A character that is not special is a literal of the pattern. -/
theorem likeTokens_cons_plain (c : Char) (rest : List Char)
    (h1 : c ≠ '%') (h2 : c ≠ '_') (h3 : c ≠ Char.ofNat 92) :
    likeTokens (c :: rest) = .lit c :: likeTokens rest := by
  rw [likeTokens.eq_def]
  simp [h1, h2, h3]

/-- A percent sign of the pattern is the wildcard of any length. -/
theorem likeTokens_cons_percent (rest : List Char) :
    likeTokens ('%' :: rest) = .many :: likeTokens rest := by
  rw [likeTokens.eq_def]
  simp

/-- An underscore of the pattern is the wildcard of one character. -/
theorem likeTokens_cons_underscore (rest : List Char) :
    likeTokens ('_' :: rest) = .one :: likeTokens rest := by
  rw [likeTokens.eq_def]
  simp

/-- A backslash makes the next character of the pattern a literal. -/
theorem likeTokens_cons_escape (d : Char) (rest : List Char) :
    likeTokens (Char.ofNat 92 :: d :: rest) = .lit d :: likeTokens rest := by
  rw [likeTokens.eq_def]
  simp

/-- A backslash that ends the pattern is a literal backslash. -/
theorem likeTokens_last_backslash :
    likeTokens [Char.ofNat 92] = [.lit (Char.ofNat 92)] := by
  rw [likeTokens.eq_def]
  simp

/-- Tokens of a run of characters none of which is special. -/
theorem likeTokens_plain (s rest : List Char)
    (hs : ∀ ch ∈ s, ch ≠ '%' ∧ ch ≠ '_' ∧ ch ≠ Char.ofNat 92) :
    likeTokens (s ++ rest) = s.map .lit ++ likeTokens rest := by
  induction s with
  | nil => rfl
  | cons c s ih =>
    obtain ⟨h1, h2, h3⟩ := hs c (List.mem_cons_self _ _)
    have ih2 := ih (fun ch hch => hs ch (List.mem_cons_of_mem _ hch))
    rw [List.cons_append, likeTokens_cons_plain c _ h1 h2 h3, ih2]
    rfl

/-- Some suffix of the text is accepted. -/
theorem anySuffix_iff (k : List Char → Bool) (x : List Char) :
    anySuffix k x = true ↔ ∃ u, u <:+ x ∧ k u = true := by
  induction x with
  | nil => simp [anySuffix]
  | cons c x ih =>
    simp only [anySuffix, Bool.or_eq_true, ih, List.suffix_cons_iff]
    constructor
    · rintro (h | ⟨u, hu, hk⟩)
      · exact ⟨_, Or.inl rfl, h⟩
      · exact ⟨u, Or.inr hu, hk⟩
    · rintro ⟨u, rfl | hu, hk⟩
      · exact Or.inl hk
      · exact Or.inr ⟨u, hu, hk⟩

/-- What the matcher accepts matches by the specification. -/
theorem likeMatch_sound (weight : Char → Nat) :
    ∀ (n : Nat) (p t : List Char), p.length ≤ n →
      likeMatch weight (likeTokens p) t = true → MatchesLike weight p t := by
  intro n
  induction n with
  | zero =>
    intro p t hp h
    have hp0 : p = [] := List.length_eq_zero.mp (Nat.le_zero.mp hp)
    subst hp0
    have ht : t = [] := by simpa [likeTokens, likeMatch] using h
    subst ht
    exact .empty
  | succ n ih =>
    intro p t hp h
    cases p with
    | nil =>
      have ht : t = [] := by simpa [likeTokens, likeMatch] using h
      subst ht
      exact .empty
    | cons c rest =>
      by_cases hbs : c = Char.ofNat 92
      · subst hbs
        cases rest with
        | nil =>
          rw [likeTokens_last_backslash] at h
          cases t with
          | nil => simp [likeMatch] at h
          | cons x t2 =>
            simp only [likeMatch, Bool.and_eq_true, beq_iff_eq] at h
            have ht2 : t2 = [] := by simpa using h.2
            subst ht2
            exact .lastBackslash x h.1
        | cons d rest2 =>
          rw [likeTokens_cons_escape] at h
          cases t with
          | nil => simp [likeMatch] at h
          | cons x t2 =>
            simp only [likeMatch, Bool.and_eq_true, beq_iff_eq] at h
            have hlen : rest2.length ≤ n := by
              simp only [List.length_cons] at hp
              omega
            exact .escaped d x h.1 (ih rest2 t2 hlen h.2)
      · have hlen : rest.length ≤ n := by
          simp only [List.length_cons] at hp
          omega
        by_cases hpc : c = '%'
        · subst hpc
          rw [likeTokens_cons_percent] at h
          simp only [likeMatch] at h
          obtain ⟨u, ⟨v, rfl⟩, hu⟩ := (anySuffix_iff _ _).mp h
          exact .percent v (ih rest u hlen hu)
        · by_cases hus : c = '_'
          · subst hus
            rw [likeTokens_cons_underscore] at h
            cases t with
            | nil => simp [likeMatch] at h
            | cons x t2 =>
              simp only [likeMatch] at h
              exact .underscore x (ih rest t2 hlen h)
          · rw [likeTokens_cons_plain c rest hpc hus hbs] at h
            cases t with
            | nil => simp [likeMatch] at h
            | cons x t2 =>
              simp only [likeMatch, Bool.and_eq_true, beq_iff_eq] at h
              exact .literal c x hpc hus hbs h.1 (ih rest t2 hlen h.2)

/-- What matches by the specification is accepted by the matcher. -/
theorem likeMatch_complete (weight : Char → Nat) (p t : List Char)
    (h : MatchesLike weight p t) : likeMatch weight (likeTokens p) t = true := by
  induction h with
  | empty => rfl
  | percent u _ ih =>
    rw [likeTokens_cons_percent]
    simp only [likeMatch]
    exact (anySuffix_iff _ _).mpr ⟨_, List.suffix_append _ _, ih⟩
  | underscore x _ ih =>
    rw [likeTokens_cons_underscore]
    simpa [likeMatch] using ih
  | escaped d x hw _ ih =>
    rw [likeTokens_cons_escape]
    simp [likeMatch, hw, ih]
  | lastBackslash x hw =>
    rw [likeTokens_last_backslash]
    simp [likeMatch, hw]
  | literal c x h1 h2 h3 hw _ ih =>
    rw [likeTokens_cons_plain c _ h1 h2 h3]
    simp [likeMatch, hw, ih]

/-- The predicate of the store is the specification of `LIKE`. -/
theorem sqlLike_iff (weight : Char → Nat) (text pattern : String) :
    sqlLike weight text pattern = true ↔ MatchesLike weight pattern.data text.data :=
  ⟨likeMatch_sound weight _ _ _ (le_refl _), likeMatch_complete weight _ _⟩

/-- Literal characters followed by `%` match the texts that begin with
characters of their weights. -/
theorem likeMatch_lits_many (weight : Char → Nat) (s u : List Char) :
    likeMatch weight (s.map .lit ++ [.many]) u = true
      ↔ ∃ v, v <+: u ∧ v.map weight = s.map weight := by
  induction s generalizing u with
  | nil =>
    simp only [List.map_nil, List.nil_append, likeMatch, List.map_eq_nil_iff]
    rw [anySuffix_iff]
    constructor
    · intro _
      exact ⟨[], List.nil_prefix, rfl⟩
    · intro _
      exact ⟨[], List.nil_suffix, rfl⟩
  | cons c s ih =>
    cases u with
    | nil =>
      simp only [List.map_cons, List.cons_append, likeMatch, Bool.false_eq_true, false_iff]
      rintro ⟨v, hv, hm⟩
      have : v = [] := List.prefix_nil.mp hv
      subst this
      simp at hm
    | cons d u =>
      have hstep : likeMatch weight (LikeTok.lit c :: (s.map .lit ++ [.many])) (d :: u)
          = (weight c == weight d && likeMatch weight (s.map .lit ++ [.many]) u) := rfl
      rw [List.map_cons, List.cons_append, hstep, Bool.and_eq_true, beq_iff_eq, ih]
      constructor
      · rintro ⟨hw, v, hv, hm⟩
        exact ⟨d :: v, (List.cons_prefix_cons).mpr ⟨rfl, hv⟩, by simp [hw, hm]⟩
      · rintro ⟨v, hv, hm⟩
        cases v with
        | nil => simp at hm
        | cons x v =>
          obtain ⟨rfl, hv2⟩ := (List.cons_prefix_cons).mp hv
          simp only [List.map_cons, List.cons.injEq] at hm
          exact ⟨hm.1.symm, v, hv2, hm.2⟩

/-- For a search string without `%`, `_` and backslash, the pattern built by
the handler matches the names that contain the string up to the collation. -/
theorem matchesLike_contains (weight : Char → Nat) (name s : String)
    (hs : ∀ ch ∈ s.data, ch ≠ '%' ∧ ch ≠ '_' ∧ ch ≠ Char.ofNat 92) :
    MatchesLike weight ("%" ++ s ++ "%").data name.data
      ↔ ContainsUnder weight s.data name.data := by
  rw [← sqlLike_iff]
  unfold sqlLike ContainsUnder
  rw [search_pattern_data, likeTokens_cons_percent, likeTokens_plain _ _ hs]
  have htail : likeTokens ['%'] = [.many] := by decide
  rw [htail, likeMatch, anySuffix_iff]
  simp only [likeMatch_lits_many]
  constructor
  · rintro ⟨u, hu, v, hv, hm⟩
    exact ⟨v, List.infix_iff_prefix_suffix.mpr ⟨u, hv, hu⟩, hm⟩
  · rintro ⟨v, hv, hm⟩
    obtain ⟨u, hvu, hu⟩ := List.infix_iff_prefix_suffix.mp hv
    exact ⟨u, hu, v, hvu, hm⟩

/-- Under a collation that tells all characters apart, containment is the
plain substring. -/
theorem containsUnder_injective (weight : Char → Nat) (hinj : Function.Injective weight)
    (s text : List Char) : ContainsUnder weight s text ↔ s <:+: text := by
  constructor
  · rintro ⟨u, hu, hm⟩
    have : u = s := List.map_injective_iff.mpr hinj hm
    exact this ▸ hu
  · intro h
    exact ⟨s, h, rfl⟩

/-- The order of the store on weights is the lexicographic order. -/
theorem textLe_iff (a b : List Nat) :
    textLe a b = true ↔ a = b ∨ List.Lex (fun x y : Nat => x < y) a b := by
  induction a generalizing b with
  | nil =>
    cases b with
    | nil => simp [textLe]
    | cons y b => simp [textLe, List.Lex.nil]
  | cons x a ih =>
    cases b with
    | nil =>
      simp only [textLe, Bool.false_eq_true, false_iff]
      rintro (h | h)
      · cases h
      · cases h
    | cons y b =>
      simp only [textLe]
      rcases Nat.lt_trichotomy x y with h | h | h
      · simp only [h, if_true, true_iff]
        exact Or.inr (List.Lex.rel h)
      · subst h
        simp only [lt_irrefl, if_false, ih b, List.cons.injEq, true_and]
        constructor
        · rintro (h | h)
          · exact Or.inl h
          · exact Or.inr (List.Lex.cons h)
        · rintro (h | h)
          · exact Or.inl h
          · cases h with
            | cons h2 => exact Or.inr h2
            | rel h2 => exact absurd h2 (lt_irrefl _)
      · have h2 : ¬ x < y := by omega
        simp only [h2, h, if_false, if_true, Bool.false_eq_true, false_iff]
        rintro (h3 | h3)
        · cases h3
          omega
        · cases h3 with
          | cons _ => omega
          | rel h4 => omega

/-- The order on weights is total. -/
theorem textLe_total (a b : List Nat) : textLe a b = true ∨ textLe b a = true := by
  induction a generalizing b with
  | nil => exact Or.inl (by simp [textLe])
  | cons x a ih =>
    cases b with
    | nil => exact Or.inr (by simp [textLe])
    | cons y b =>
      simp only [textLe]
      rcases Nat.lt_trichotomy x y with h | h | h
      · simp [h]
      · simp [h, ih b]
      · have h2 : ¬ x < y := by omega
        simp [h, h2]

/-- The order on weights is transitive. -/
theorem textLe_trans (a b c : List Nat) (hab : textLe a b = true) (hbc : textLe b c = true) :
    textLe a c = true := by
  induction a generalizing b c with
  | nil => simp [textLe]
  | cons x a ih =>
    cases b with
    | nil => simp [textLe] at hab
    | cons y b =>
      cases c with
      | nil => simp [textLe] at hbc
      | cons z c =>
        simp only [textLe] at hab hbc ⊢
        by_cases hxy : x < y
        · by_cases hyz : y < z
          · have : x < z := by omega
            simp [this]
          · by_cases hzy : z < y
            · simp [hyz, hzy] at hbc
            · have : x < z := by omega
              simp [this]
        · by_cases hyx : y < x
          · simp [hxy, hyx] at hab
          · simp only [hxy, hyx, if_false] at hab
            by_cases hyz : y < z
            · have : x < z := by omega
              simp [this]
            · by_cases hzy : z < y
              · simp [hyz, hzy] at hbc
              · simp only [hyz, hzy, if_false] at hbc
                have h1 : ¬ x < z := by omega
                have h2 : ¬ z < x := by omega
                simp only [h1, h2, if_false]
                exact ih b c hab hbc

/-- The search handler in a healthy environment: it answers 200 with the
rows whose name matches the pattern, sorted by name. -/
theorem search_run (env : Env) (req : Req) (w : World) (t : List Cadastro) (s : String)
    (henv : env.healthy) (ht : w.table = some t) (hn : req.params.nome = .str s) :
    Handler.search.run env req w
      = ⟨[⟨200, successData (.records
            ((t.filter (fun r => sqlLike w.collation r.nome_completo ("%" ++ s ++ "%"))).insertionSort
              (NomeAsc w.collation)))⟩],
          { w with now := w.now + env.elapsed }, none⟩ := by
  obtain ⟨ha, he⟩ := henv
  rcases w with ⟨⟨held⟩, tbl, now, coll⟩
  simp only at ht
  subst ht
  have hx := execute_of_table env .searchQuery [.str ("%" ++ s ++ "%")]
    ⟨⟨held + 1⟩, some t, now, coll⟩ t [some ("%" ++ s ++ "%")] he rfl rfl
  simp only [runStatement] at hx
  simp [Handler.run, Handler.body, tryCatch, searchBody, getConnection, connectionExecute,
    ha, hn, hx, release, resJson, JsVal.toText, ExecResult.asRows]

/-- The rows of a search, counted: a row whose name matches is there as
often as in the table, and no other row is there. -/
theorem search_rows_count (weight : Char → Nat) (t : List Cadastro) (pattern : String)
    (r : Cadastro) :
    (MatchesLike weight pattern.data r.nome_completo.data →
        ((t.filter (fun x => sqlLike weight x.nome_completo pattern)).insertionSort
          (NomeAsc weight)).count r = t.count r)
      ∧ (¬ MatchesLike weight pattern.data r.nome_completo.data →
        r ∉ (t.filter (fun x => sqlLike weight x.nome_completo pattern)).insertionSort
          (NomeAsc weight)) := by
  constructor
  · intro hm
    rw [(List.perm_insertionSort (NomeAsc weight) _).count_eq r]
    exact List.count_filter (by simpa using (sqlLike_iff weight _ _).mpr hm)
  · intro hm hmem
    have h2 := (List.perm_insertionSort (NomeAsc weight) _).mem_iff.mp hmem
    have h3 := (List.mem_filter.mp h2).2
    exact hm ((sqlLike_iff weight _ _).mp h3)

/-- C5 (fails on the code): the search for `_` returns the record named
Maria Silva, whose name has no underscore, nor any character that the
collation takes for one. -/
theorem search_underscore_matches_any :
    (Handler.search.run calm ⟨⟨.undefined, .str "_"⟩, none⟩ mariaWorld).sent
        = [⟨200, .envelope ⟨true, some (.records [mariaRow]), none, none, none⟩⟩]
      ∧ ¬ ("_".data <:+: mariaRow.nome_completo.data)
      ∧ ∀ ch ∈ mariaRow.nome_completo.data, mariaWorld.collation ch ≠ mariaWorld.collation '_' := by
  decide

/-- C5 (amended): in a healthy environment the search answers 200 with a
sequence of records in ascending order of name under the collation of the
column, in which a record is present, as often as it is stored, exactly when
its name matches the `LIKE` pattern `%s%` (`%` any run of characters, `_` any
one character, backslash the escape); none at all is the empty sequence.
When `s` has no `%`, no `_` and no backslash these are the records whose name
contains `s` up to the collation, and under a collation that tells all
characters apart the records whose name contains `s`. -/
theorem search_by_name (env : Env) (req : Req) (w : World) (t : List Cadastro) (s : String)
    (henv : env.healthy) (ht : w.table = some t) (hn : req.params.nome = .str s) :
    ∃ rs, (Handler.search.run env req w).sent
        = [⟨200, .envelope ⟨true, some (.records rs), none, none, none⟩⟩]
      ∧ rs.Sorted (NomeLe w.collation)
      ∧ (∀ r, MatchesLike w.collation ("%" ++ s ++ "%").data r.nome_completo.data →
          rs.count r = t.count r)
      ∧ (∀ r, ¬ MatchesLike w.collation ("%" ++ s ++ "%").data r.nome_completo.data → r ∉ rs)
      ∧ ((∀ ch ∈ s.data, ch ≠ '%' ∧ ch ≠ '_' ∧ ch ≠ Char.ofNat 92) →
          ∀ r, (ContainsUnder w.collation s.data r.nome_completo.data → rs.count r = t.count r)
            ∧ (¬ ContainsUnder w.collation s.data r.nome_completo.data → r ∉ rs))
      ∧ ((∀ ch ∈ s.data, ch ≠ '%' ∧ ch ≠ '_' ∧ ch ≠ Char.ofNat 92) →
          Function.Injective w.collation →
          ∀ r, (s.data <:+: r.nome_completo.data → rs.count r = t.count r)
            ∧ (¬ s.data <:+: r.nome_completo.data → r ∉ rs)) := by
  rw [search_run env req w t s henv ht hn]
  haveI : IsTotal Cadastro (NomeAsc w.collation) := ⟨fun _ _ => textLe_total _ _⟩
  haveI : IsTrans Cadastro (NomeAsc w.collation) :=
    ⟨fun _ _ _ hab hbc => textLe_trans _ _ _ hab hbc⟩
  have hcount := search_rows_count w.collation t ("%" ++ s ++ "%")
  refine ⟨_, rfl, ?_, fun r => (hcount r).1, fun r => (hcount r).2, ?_, ?_⟩
  · exact (List.sorted_insertionSort (NomeAsc w.collation) _).imp
      (fun h => (textLe_iff _ _).mp h)
  · intro hs r
    have hiff := matchesLike_contains w.collation r.nome_completo s hs
    exact ⟨fun h => (hcount r).1 (hiff.mpr h), fun h => (hcount r).2 (fun hm => h (hiff.mp hm))⟩
  · intro hs hinj r
    have hiff := (matchesLike_contains w.collation r.nome_completo s hs).trans
      (containsUnder_injective w.collation hinj _ _)
    exact ⟨fun h => (hcount r).1 (hiff.mpr h), fun h => (hcount r).2 (fun hm => h (hiff.mp hm))⟩

/-- Witness for C5 (amended): under the case-insensitive collation the
search for `maria` finds the stored record. -/
theorem search_by_name_witness :
    calm.healthy ∧ mariaWorld.table = some [mariaRow]
      ∧ (∀ ch ∈ "maria".data, ch ≠ '%' ∧ ch ≠ '_' ∧ ch ≠ Char.ofNat 92)
      ∧ ContainsUnder mariaWorld.collation "maria".data mariaRow.nome_completo.data
      ∧ ∃ rs, (Handler.search.run calm ⟨⟨.undefined, .str "maria"⟩, none⟩ mariaWorld).sent
          = [⟨200, .envelope ⟨true, some (.records rs), none, none, none⟩⟩]
        ∧ rs.Sorted (NomeLe mariaWorld.collation)
        ∧ rs.count mariaRow = [mariaRow].count mariaRow :=
  ⟨⟨rfl, rfl⟩, rfl, by decide, ⟨"Maria".data, by decide, by decide⟩,
    (search_by_name calm ⟨⟨.undefined, .str "maria"⟩, none⟩ mariaWorld [mariaRow] "maria"
      ⟨rfl, rfl⟩ rfl rfl).imp (fun _ h =>
        ⟨h.1, h.2.1, (h.2.2.2.2.1 (by decide) mariaRow).1 ⟨"Maria".data, by decide, by decide⟩⟩)⟩

/-! ## Invariant of the table -/

/-- The table invariant survives the passing of time. -/
theorem TableOk.mono (now now2 : Nat) (t : List Cadastro) (h : TableOk now t) (hle : now ≤ now2) :
    TableOk now2 t :=
  ⟨h.1, fun r hr => ⟨(h.2 r hr).1, le_trans (h.2 r hr).2 hle⟩⟩

/-- An update keeps the key of the row. -/
theorem updatedRow_cpf (now : Nat) (c : RowColumns) (r : Cadastro) :
    (updatedRow now c r).cpf = r.cpf := by
  unfold updatedRow
  simp only
  split <;> rfl

/-- An update keeps the timestamps of the row in order. -/
theorem updatedRow_times (now : Nat) (c : RowColumns) (r : Cadastro)
    (h : r.created_at ≤ r.updated_at ∧ r.updated_at ≤ now) :
    (updatedRow now c r).created_at ≤ (updatedRow now c r).updated_at
      ∧ (updatedRow now c r).updated_at ≤ now := by
  unfold updatedRow
  simp only
  split
  · exact h
  · exact ⟨le_trans h.1 h.2, le_refl _⟩

/-- Every statement that succeeds keeps the table invariant. -/
theorem runStatement_tableOk (weight : Char → Nat) (now : Nat) (t t2 : List Cadastro)
    (stmt : Stmt) (vs : List SqlVal) (r : ExecResult)
    (hx : runStatement weight now t stmt vs = .ok (r, t2))
    (hok : TableOk now t) : TableOk now t2 := by
  unfold runStatement at hx
  split at hx
  · cases hx; exact hok
  · split at hx
    · cases hx
    · next cpf _ =>
      split at hx
      · cases hx
      · next c _ =>
        split at hx
        · cases hx
        · next hany =>
          cases hx
          have hfresh : ∀ x ∈ t, x.cpf ≠ cpf := by simpa using hany
          refine ⟨?_, ?_⟩
          · rw [List.map_append, List.nodup_append]
            refine ⟨hok.1, by simp, ?_⟩
            intro a ha hb
            simp at hb
            obtain ⟨x, hx, rfl⟩ := List.mem_map.mp ha
            exact hfresh x hx hb
          · intro x hx
            rcases List.mem_append.mp hx with h | h
            · exact hok.2 x h
            · simp at h
              subst h
              exact ⟨le_refl _, le_refl _⟩
  · cases hx; exact hok
  · split at hx <;> (cases hx; exact hok)
  · split at hx
    · cases hx; exact hok
    · split at hx
      · split at hx
        · cases hx
        · next cpf _ _ c _ =>
          cases hx
          refine ⟨?_, ?_⟩
          · have : (t.map (fun r => if (r.cpf == cpf) = true then updatedRow now c r else r)).map
                (fun r => r.cpf) = t.map (fun r => r.cpf) := by
              rw [List.map_map]
              apply List.map_congr_left
              intro x _
              simp only [Function.comp]
              split
              · exact updatedRow_cpf now c x
              · rfl
            rw [this]
            exact hok.1
          · intro x hx
            obtain ⟨y, hy, rfl⟩ := List.mem_map.mp hx
            split
            · exact updatedRow_times now c y (hok.2 y hy)
            · exact hok.2 y hy
      · cases hx; exact hok
  · split at hx
    · cases hx; exact hok
    · cases hx
      exact ⟨(hok.1.sublist ((List.filter_sublist _).map _)), fun x hx =>
        hok.2 x (List.mem_of_mem_filter hx)⟩
  · cases hx; exact hok
  · split at hx <;> (cases hx; exact hok)
  · cases hx

/-- Every statement that resolves keeps the invariant of the world. -/
theorem execute_wellFormed (env : Env) (stmt : Stmt) (ps : List JsVal) (w w2 : World)
    (r : ExecResult) (hx : execute env stmt ps w = .ok (r, w2)) (hw : w.wellFormed) :
    w2.wellFormed := by
  cases hb : bindParams ps with
  | error e => simp [execute, hb] at hx
  | ok vs =>
    cases he : env.exec with
    | some e => simp [execute, hb, he] at hx
    | none =>
      cases htab : w.table with
      | none =>
        unfold execute at hx
        simp only [hb, he, htab] at hx
        split at hx
        · split at hx
          · cases hx
            intro t ht
            cases ht
            exact ⟨by simp, by simp⟩
          · cases hx
        · cases hx
        · next heq => cases heq
      | some t =>
        rw [execute_of_table env stmt ps w t vs he htab hb] at hx
        cases hrun : runStatement w.collation (w.now + env.elapsed) t stmt vs with
        | error e => simp [hrun] at hx
        | ok rt =>
          obtain ⟨r2, t2⟩ := rt
          simp only [hrun] at hx
          cases hx
          intro t3 ht3
          cases ht3
          exact runStatement_tableOk _ _ t _ stmt vs _ hrun
            (TableOk.mono _ _ t (hw t htab) (Nat.le_add_right _ _))

/-- A handler that issues no statement leaves the world as it was. -/
theorem run_without_statement (h : Handler) (env : Env) (req : Req) (w : World)
    (hs : h.statement req = none) : (h.run env req w).world = w := by
  rcases req with ⟨prm, _ | b⟩ <;> cases h <;>
    simp_all [Handler.statement, Handler.run, Handler.body, tryCatch, rootBody, createBody,
      updateBody, resJson]

/-- Every handler run keeps the invariant of the world: keys stay distinct
and timestamps stay in order and behind the clock. -/
theorem run_wellFormed (h : Handler) (env : Env) (req : Req) (w : World)
    (hw : w.wellFormed) : (h.run env req w).world.wellFormed := by
  cases hs : h.statement req with
  | none => rw [run_without_statement h env req w hs]; exact hw
  | some sp =>
    obtain ⟨stmt, ps⟩ := sp
    cases ha : env.acquire with
    | some e =>
      simp only [Handler.run, tryCatch_thrown _ w w e
        (body_of_acquire_error h env req w stmt ps e hs ha)]
      exact hw
    | none =>
      have hacq : w.acquired.wellFormed := hw
      cases hx : execute env stmt ps w.acquired with
      | error e =>
        simp only [Handler.run, tryCatch_thrown _ w w.acquired e
          (body_of_execute_error h env req w stmt ps e hs ha hx)]
        exact hacq
      | ok rw2 =>
        obtain ⟨r, w2⟩ := rw2
        rw [body_of_execute_ok h env req w w2 stmt ps r hs ha hx]
        exact execute_wellFormed env stmt ps w.acquired w2 r hx hacq


end PetSaude
